import Mathlib

/-!
# Verification of the PgQueryBuilder filter-condition engine

Shallow embedding of the repository's core modules:

* `src/QueryBuilder/dateUtils.ts` (`DateFilterUtils`)
* `src/QueryBuilder/filterOperations.ts` (`FILTER_OPERATIONS`, `FilterOperation`,
  `FilterOperations`)
* `src/QueryBuilder/filterConditionBuilder.ts` (`FilterConditionBuilder`)

JavaScript dynamic values are embedded as the inductive type `JSValue`;
fallible code paths (thrown `Error`s and JS `TypeError`s) return `Except`.
JS `Map` objects are embedded as association lists with last-write-wins
lookup (`jsMapGet` / `jsMapSet`).  Machine details that the claims depend on
(template-literal stringification, `String.prototype.split`, the greedy
`^(.+)_([a-zA-Z]+)$` key regex, `Date` arithmetic with the host timezone
fixed to UTC) are modelled explicitly below.
-/

namespace PgQB

/-- Embedding of a JavaScript runtime value as used by the query builder.
Numbers are modelled as integers (the repository only ever uses integral
numbers: years, months, counts). -/
inductive JSValue where
  | str (s : String)
  | num (n : Int)
  | bool (b : Bool)
  | null
  | undef
  | arr (elems : List JSValue)
  | obj (fields : List (String × JSValue))
deriving Repr

/-- Decimal digit character for `d < 10` (ASCII `'0'` + d). -/
def digitChar (d : Nat) : Char := Char.ofNat (48 + d)

/-- Fuel-driven decimal rendering of a natural number (little helper so that
everything reduces by `rfl`/`decide`; the fuel `n+1` always suffices). -/
def natDigitsAux : Nat → Nat → List Char
  | 0, _ => []
  | fuel+1, n => if n < 10 then [digitChar n] else natDigitsAux fuel (n / 10) ++ [digitChar (n % 10)]

/-- Decimal string of a natural number, as produced by JS number→string
conversion for non-negative integral numbers. -/
def natStr (n : Nat) : String := ⟨natDigitsAux (n + 1) n⟩

/-- Decimal string of an integer, as produced by JS number→string conversion
for integral numbers. -/
def intStr (n : Int) : String :=
  if n < 0 then "-" ++ natStr n.natAbs else natStr n.natAbs

/-- JS `Array.prototype.join`. -/
def strJoin (sep : String) : List String → String
  | [] => ""
  | [s] => s
  | s :: rest => s ++ sep ++ strJoin sep rest

mutual

/-- JS string coercion used by template literals (`${v}`).  Arrays render as
their comma-joined elements (with `null`/`undefined` elements rendering
empty), plain objects as `"[object Object]"`. -/
def jsToString : JSValue → String
  | .str s => s
  | .num n => intStr n
  | .bool b => if b then "true" else "false"
  | .null => "null"
  | .undef => "undefined"
  | .arr elems => strJoin "," (jsToStringList elems)
  | .obj _ => "[object Object]"

/-- Element-wise rendering of a JS array for `Array.prototype.toString`. -/
def jsToStringList : List JSValue → List String
  | [] => []
  | .null :: rest => "" :: jsToStringList rest
  | .undef :: rest => "" :: jsToStringList rest
  | e :: rest => jsToString e :: jsToStringList rest

end

/-- JS truthiness. -/
def jsTruthy : JSValue → Bool
  | .str s => s ≠ ""
  | .num n => n ≠ 0
  | .bool b => b
  | .null => false
  | .undef => false
  | .arr _ => true
  | .obj _ => true

/-- JS `a || b`. -/
def jsOr (a b : JSValue) : JSValue := if jsTruthy a then a else b

/-- JS `Map.prototype.get` over an association list built in insertion order:
later insertions of the same key win. -/
def jsMapGet {α : Type} (entries : List (String × α)) (key : String) : Option α :=
  (entries.reverse.find? (fun e => e.1 == key)).map (·.2)

/-- JS `Map.prototype.set`: replace in place if the key exists, else append. -/
def jsMapSet {α : Type} (entries : List (String × α)) (key : String) (value : α) :
    List (String × α) :=
  if (entries.find? (fun e => e.1 == key)).isSome then
    entries.map (fun e => if e.1 == key then (key, value) else e)
  else entries ++ [(key, value)]

/-- JS property access `v[k]` for a string key: throws `TypeError` on
`null`/`undefined`, returns the property (or `undefined`) otherwise.
Plain objects are modelled with own properties only. -/
def jsGetProp (v : JSValue) (key : String) : Except Unit JSValue :=
  match v with
  | .null => .error ()
  | .undef => .error ()
  | .obj fields => .ok ((jsMapGet fields key).getD .undef)
  | _ => .ok (.undef)

/-- JS numeric index access `v[i]`: throws on `null`/`undefined`; arrays
yield the element, strings the 1-character string, everything else
`undefined`. -/
def jsIndex (v : JSValue) (i : Nat) : Except Unit JSValue :=
  match v with
  | .null => .error ()
  | .undef => .error ()
  | .arr elems => .ok ((elems.get? i).getD .undef)
  | .str s => .ok (((s.data.get? i).map (fun c => JSValue.str ⟨[c]⟩)).getD .undef)
  | _ => .ok (.undef)

/-- Split a character list at every occurrence of `sep`
(JS `String.prototype.split` with a 1-character separator). -/
def splitChars (sep : Char) : List Char → List (List Char)
  | [] => [[]]
  | c :: rest =>
    match splitChars sep rest with
    | [] => [[]]
    | h :: t => if c = sep then [] :: h :: t else (c :: h) :: t

/-- JS `s.split(sep)` for a 1-character separator. -/
def jsSplit (s : String) (sep : Char) : List String :=
  (splitChars sep s.data).map String.mk

/-- Contiguous-sublist check used to model `String.prototype.includes`. -/
def infixCheck (sub : List Char) : List Char → Bool
  | [] => sub.isEmpty
  | c :: rest => sub.isPrefixOf (c :: rest) || infixCheck sub rest

/-- JS `String.prototype.includes`. -/
def strIncludes (s sub : String) : Bool := infixCheck sub.data s.data

/-! ## Date utilities (`src/QueryBuilder/dateUtils.ts`)

`new Date(year, monthIndex, day, h, m, s, ms)` interprets its arguments in
the host's local timezone while `toISOString` renders UTC.  The embedding
fixes the host timezone to UTC, so date construction and ISO rendering agree;
this is noted wherever a claim depends on it.  Calendar arithmetic uses the
standard civil-from-days / days-from-civil algorithms over `Int` with floor
division. -/

/-- Days from civil date (proleptic Gregorian) to days since 1970-01-01. -/
def daysFromCivil (y m d : Int) : Int :=
  let y := if m ≤ 2 then y - 1 else y
  let era := Int.fdiv y 400
  let yoe := y - era * 400
  let mp := if m > 2 then m - 3 else m + 9
  let doy := Int.fdiv (153 * mp + 2) 5 + d - 1
  let doe := yoe * 365 + Int.fdiv yoe 4 - Int.fdiv yoe 100 + doy
  era * 146097 + doe - 719468

/-- Civil date (year, month, day) from days since 1970-01-01. -/
def civilFromDays (z : Int) : Int × Int × Int :=
  let z := z + 719468
  let era := Int.fdiv z 146097
  let doe := z - era * 146097
  let yoe := Int.fdiv (doe - Int.fdiv doe 1460 + Int.fdiv doe 36524 - Int.fdiv doe 146096) 365
  let y := yoe + era * 400
  let doy := doe - (365 * yoe + Int.fdiv yoe 4 - Int.fdiv yoe 100)
  let mp := Int.fdiv (5 * doy + 2) 153
  let d := doy - Int.fdiv (153 * mp + 2) 5 + 1
  let m := if mp < 10 then mp + 3 else mp - 9
  (if m ≤ 2 then y + 1 else y, m, d)

/-- Milliseconds since the epoch of `new Date(y, mIdx, d, h, mi, s, ms)`
with the host timezone fixed to UTC.  Follows the JS rules: years 0–99 mean
1900–1999, and out-of-range month indices / day 0 overflow into adjacent
months and days. -/
def jsDateMs (y mIdx d h mi s ms : Int) : Int :=
  let y := if 0 ≤ y ∧ y ≤ 99 then 1900 + y else y
  let ym := y * 12 + mIdx
  let ny := Int.fdiv ym 12
  let nm := ym - ny * 12
  (daysFromCivil ny (nm + 1) 1 + (d - 1)) * 86400000
    + h * 3600000 + mi * 60000 + s * 1000 + ms

/-- Left-pad a decimal rendering with zeros to width `w`. -/
def padZeros (w n : Nat) : String :=
  let s := natStr n
  ⟨List.replicate (w - s.length) '0'⟩ ++ s

/-- `Date.prototype.toISOString` with the host timezone fixed to UTC
(years 0–9999 use the 4-digit form; other years use the expanded
sign + 6-digit form). -/
def msToISO (ms : Int) : String :=
  let days := Int.fdiv ms 86400000
  let rem := (ms - days * 86400000).toNat
  let ymd := civilFromDays days
  let y := ymd.1
  let m := ymd.2.1.toNat
  let d := ymd.2.2.toNat
  let yearStr :=
    if 0 ≤ y ∧ y ≤ 9999 then padZeros 4 y.toNat
    else if y < 0 then "-" ++ padZeros 6 y.natAbs
    else "+" ++ padZeros 6 y.toNat
  yearStr ++ "-" ++ padZeros 2 m ++ "-" ++ padZeros 2 d ++ "T"
    ++ padZeros 2 (rem / 3600000) ++ ":" ++ padZeros 2 (rem / 60000 % 60) ++ ":"
    ++ padZeros 2 (rem / 1000 % 60) ++ "." ++ padZeros 3 (rem % 1000) ++ "Z"

/-- `DateRange` of `dateUtils.ts` (`endVal` models the source field `end`,
which is a reserved word in Lean). -/
structure DateRange where
  start : String
  endVal : String
deriving Repr, DecidableEq

/-- `DateFilterUtils.getMonthRange`, cache aside: `start` is
`new Date(year, month - 1, 1)` and `end` is
`new Date(year, month, 0, 23, 59, 59, 999)`, both serialized with
`toISOString` (host timezone fixed to UTC). -/
def getMonthRange (year month : Int) : DateRange :=
  { start := msToISO (jsDateMs year (month - 1) 1 0 0 0 0)
    endVal := msToISO (jsDateMs year month 0 23 59 59 999) }

/-- `DateFilterUtils.getYearRange`, cache aside: `start` is
`new Date(year, 0, 1)` and `end` is `new Date(year, 11, 31, 23, 59, 59, 999)`. -/
def getYearRange (year : Int) : DateRange :=
  { start := msToISO (jsDateMs year 0 1 0 0 0 0)
    endVal := msToISO (jsDateMs year 11 31 23 59 59 999) }

/-- The cache key `` `month:${year}-${month}` `` of `getMonthRange`. -/
def monthCacheKey (year month : Int) : String :=
  "month:" ++ intStr year ++ "-" ++ intStr month

/-- `DateFilterUtils.getMonthRange` including its read-through
`dateRangeCache`: returns the cached entry when present, else computes,
stores and returns.  The second component is the cache after the call. -/
def getMonthRangeCached (cache : List (String × DateRange)) (year month : Int) :
    DateRange × List (String × DateRange) :=
  let cacheKey := monthCacheKey year month
  match jsMapGet cache cacheKey with
  | some r => (r, cache)
  | none =>
    let range := getMonthRange year month
    (range, jsMapSet cache cacheKey range)

/-- Error surface of the embedded modules. -/
inductive QBError where
  /-- `Invalid filter field: ${field}` -/
  | invalidFilterField (field : String)
  /-- `Unsupported filter operation: ${operator}` -/
  | unsupportedOperation (operator : String)
  /-- `Maximum number of filter conditions exceeded` -/
  | maxConditionsExceeded
  /-- `Invalid date range format. Use "start,end" or {start, end}` -/
  | invalidDateRangeFormat
  /-- a JS `TypeError` (property access on `null`/`undefined`, calling
  `.split` on a non-string, …) -/
  | typeError
  /-- a JS `RangeError` from `toISOString` on an invalid `Date`
  (NaN year/month reaching the date helpers) -/
  | invalidDate
deriving Repr, DecidableEq

/-- `DateFilterUtils.parseDateRange`.  A string splits on `","` and succeeds
exactly when it has two parts (trimmed); otherwise the `typeof value ===
'object'` branch runs: JS `typeof null` is `'object'` and `'start' in null`
throws a `TypeError`; an object succeeds iff it has both `start` and `end`
keys (returned as-is); every remaining shape throws the invalid-format
error. -/
def parseDateRange (value : JSValue) : Except QBError JSValue :=
  match value with
  | .str s =>
    match jsSplit s ',' with
    | [a, b] => .ok (.obj [("start", .str a.trim), ("end", .str b.trim)])
    | _ => .error .invalidDateRangeFormat
  | .null => .error .typeError
  | .obj fields =>
    if (jsMapGet fields "start").isSome ∧ (jsMapGet fields "end").isSome then
      .ok (.obj fields)
    else .error .invalidDateRangeFormat
  | _ => .error .invalidDateRangeFormat

/-! ## Filter operations (`src/QueryBuilder/filterOperations.ts`) -/

/-- The value-transformer closures appearing in `FILTER_OPERATIONS` (and the
one custom transformer of `responseMapper.ts`), as a first-order codebook so
that operations stay decidably comparable. -/
inductive Transformer where
  /-- `v => \`%${v}%\`` -/
  | percentBoth
  /-- `v => \`${v}%\`` -/
  | percentAfter
  /-- `v => \`%${v}\`` -/
  | percentBefore
  /-- `v => v` -/
  | identity
  /-- `` ([path, val]) => `${path} = '${val}'` `` -/
  | jsonEqFmt
  /-- `` v => `'${v}'` `` -/
  | quote
  /-- `() => true` -/
  | constTrue
  /-- `() => false` -/
  | constFalse
deriving Repr, DecidableEq

/-- Apply a transformer to a JS value.  `jsonEqFmt` array-destructures its
argument; on a non-array it is modelled as `undefined` (it is never invoked
by the builder: the `jsonEq` switch branch destructures the value itself). -/
def Transformer.apply : Transformer → JSValue → JSValue
  | .percentBoth, v => .str ("%" ++ jsToString v ++ "%")
  | .percentAfter, v => .str (jsToString v ++ "%")
  | .percentBefore, v => .str ("%" ++ jsToString v)
  | .identity, v => v
  | .jsonEqFmt, .arr (p :: val :: _) =>
    .str (jsToString p ++ " = \x27" ++ jsToString val ++ "\x27")
  | .jsonEqFmt, _ => .undef
  | .quote, v => .str ("\x27" ++ jsToString v ++ "\x27")
  | .constTrue, _ => .bool true
  | .constFalse, _ => .bool false

/-- `FilterOperation` (also covers `FilterOperationConfig`: the class
constructor copies the three fields verbatim). -/
structure FilterOperation where
  operator : String
  sqlOperator : String
  valueTransformer : Option Transformer := none
deriving Repr, DecidableEq

/-- `operation.transform(value)`. -/
def FilterOperation.transform (op : FilterOperation) (value : JSValue) : JSValue :=
  match op.valueTransformer with
  | some t => t.apply value
  | none => value

/-- The static `FILTER_OPERATIONS` table. -/
def FILTER_OPERATIONS : List FilterOperation := [
  -- Basic Comparisons
  { operator := "eq", sqlOperator := "=" },
  { operator := "ne", sqlOperator := "!=" },
  { operator := "gt", sqlOperator := ">" },
  { operator := "gte", sqlOperator := ">=" },
  { operator := "lt", sqlOperator := "<" },
  { operator := "lte", sqlOperator := "<=" },
  -- LIKE variants
  { operator := "like", sqlOperator := "ILIKE", valueTransformer := some .percentBoth },
  { operator := "startsWith", sqlOperator := "ILIKE", valueTransformer := some .percentAfter },
  { operator := "endsWith", sqlOperator := "ILIKE", valueTransformer := some .percentBefore },
  -- Array and Set
  { operator := "in", sqlOperator := "IN" },
  { operator := "notIn", sqlOperator := "NOT IN" },
  -- Range
  { operator := "between", sqlOperator := "BETWEEN" },
  { operator := "notBetween", sqlOperator := "NOT BETWEEN" },
  -- Null Checks
  { operator := "isNull", sqlOperator := "IS NULL" },
  { operator := "isNotNull", sqlOperator := "IS NOT NULL" },
  -- Dates
  { operator := "dateRange", sqlOperator := "BETWEEN" },
  { operator := "monthYear", sqlOperator := "BETWEEN" },
  { operator := "year", sqlOperator := "=" },
  -- String Contains
  { operator := "contains", sqlOperator := "LIKE", valueTransformer := some .percentBoth },
  { operator := "notContains", sqlOperator := "NOT LIKE", valueTransformer := some .percentBoth },
  -- Regex
  { operator := "regexp", sqlOperator := "~" },
  { operator := "notRegexp", sqlOperator := "!~" },
  { operator := "iRegexp", sqlOperator := "~*" },
  { operator := "notIRegexp", sqlOperator := "!~*" },
  -- PostgreSQL-specific Array
  { operator := "any", sqlOperator := "= ANY" },
  { operator := "all", sqlOperator := "= ALL" },
  -- IS, NOT IS
  { operator := "is", sqlOperator := "IS" },
  { operator := "not", sqlOperator := "IS NOT" },
  -- JSON (PostgreSQL JSONB)
  { operator := "jsonContains", sqlOperator := "@>" },
  { operator := "jsonContained", sqlOperator := "<@" },
  { operator := "jsonKeyExists", sqlOperator := "?", valueTransformer := some .identity },
  { operator := "jsonAnyKeyExists", sqlOperator := "?|", valueTransformer := some .identity },
  { operator := "jsonAllKeysExist", sqlOperator := "?&", valueTransformer := some .identity },
  { operator := "jsonPath", sqlOperator := "#>>" },
  { operator := "jsonPathText", sqlOperator := "#>" },
  { operator := "jsonEq", sqlOperator := "#>>", valueTransformer := some .jsonEqFmt },
  -- Array operations
  { operator := "overlap", sqlOperator := "&&" },
  { operator := "contained", sqlOperator := "<@" },
  { operator := "containsArray", sqlOperator := "@>" },
  -- Full-Text Search
  { operator := "fts", sqlOperator := "@@", valueTransformer := some .quote },
  { operator := "ftsPlain", sqlOperator := "@@ plainto_tsquery", valueTransformer := some .quote },
  { operator := "ftsPhrase", sqlOperator := "@@ phraseto_tsquery", valueTransformer := some .quote },
  { operator := "ftsWeb", sqlOperator := "@@ websearch_to_tsquery", valueTransformer := some .quote },
  -- Case-insensitive
  { operator := "ciEq", sqlOperator := "ILIKE" },
  { operator := "ciNe", sqlOperator := "NOT ILIKE" },
  -- Column comparison
  { operator := "col", sqlOperator := "=" },
  -- Boolean
  { operator := "isTrue", sqlOperator := "=", valueTransformer := some .constTrue },
  { operator := "isFalse", sqlOperator := "=", valueTransformer := some .constFalse },
  -- Null-safe (IS DISTINCT FROM)
  { operator := "distinctFrom", sqlOperator := "IS DISTINCT FROM" },
  { operator := "notDistinctFrom", sqlOperator := "IS NOT DISTINCT FROM" }
]

/-- The static map `FilterOperations.operations`, keyed by operator name. -/
def operationsMap : List (String × FilterOperation) :=
  FILTER_OPERATIONS.map (fun op => (op.operator, op))

/-- `FilterOperations.get` without the read-through cache (the cold-cache
path: straight registry lookup). -/
def filterOperationsGet (operator : String) : Except QBError FilterOperation :=
  match jsMapGet operationsMap operator with
  | some operation => .ok operation
  | none => .error (.unsupportedOperation operator)

/-- `FilterOperations.get` including the read-through `operationCache`;
returns the result together with the cache after the call. -/
def filterOperationsGetCached (cache : List (String × FilterOperation))
    (operator : String) : Except QBError FilterOperation × List (String × FilterOperation) :=
  match jsMapGet cache operator with
  | some cached => (.ok cached, cache)
  | none =>
    match jsMapGet operationsMap operator with
    | some operation => (.ok operation, jsMapSet cache operator operation)
    | none => (.error (.unsupportedOperation operator), cache)

/-! ## Filter condition builder (`src/QueryBuilder/filterConditionBuilder.ts`) -/

/-- `FieldMapping` (`fieldMapping.ts`): physical expression and declared
type; the optional metadata fields (`required`, `default`, `validate`,
`enumValues`) are never read by the condition builder and are omitted. -/
structure FieldMapping where
  dbField : String
  type : String
deriving Repr, DecidableEq

/-- Mutable state of a `FilterConditionBuilder`: emitted condition
fragments, bound values and the next placeholder index. -/
structure BuilderState where
  conditions : List String
  values : List JSValue
  paramIndex : Nat
deriving Repr

/-- Builder state after the constructor. -/
def initState : BuilderState := { conditions := [], values := [], paramIndex := 1 }

/-- `this.maxConditions` (always 50, set in the constructor). -/
def maxConditions : Nat := 50

/-- `shouldSkipParam`: strict-equality tests against `undefined`, `null`
and `''`, plus exclusion and reserved keys. -/
def shouldSkipParam (paramKey : String) (paramValue : JSValue)
    (excludeFields : List String) : Bool :=
  (match paramValue with
   | .undef => true
   | .null => true
   | .str "" => true
   | _ => false)
  || excludeFields.contains paramKey
  || ["limit", "offset", "sort", "sortField", "fields"].contains paramKey

/-- `getDefaultOperator`. -/
def getDefaultOperator (fieldType : String) : String :=
  match fieldType with
  | "string" => "like"
  | "boolean" => "isTrue"
  | "uuid" => "eq"
  | "number" => "eq"
  | "date" => "dateRange"
  | "timestamp" => "dateRange"
  | "jsonb" => "jsonContains"
  | "array" => "containsArray"
  | "tsvector" => "fts"
  | _ => "eq"

/-- `getCastSuffix`. -/
def getCastSuffix (fieldType : String) : String :=
  match fieldType with
  | "date" => "::date"
  | "timestamp" => "::timestamp"
  | "jsonb" => "::jsonb"
  | "array" => "::text[]"
  | _ => ""

/-- The key regex `^(.+)_([a-zA-Z]+)$` with greedy `(.+)`: matches iff the
key has a last underscore with a non-empty all-alpha run to its right and a
non-empty prefix to its left; yields (field name, operator suffix). -/
def parseKey (key : String) : Option (String × String) :=
  let revd := key.data.reverse
  let sfx := revd.takeWhile Char.isAlpha
  match revd.dropWhile Char.isAlpha with
  | '_' :: pre =>
    if sfx.isEmpty || pre.isEmpty then none
    else some (⟨pre.reverse⟩, ⟨sfx.reverse⟩)
  | _ => none

/-- Property access that raises the JS `TypeError` into `QBError`. -/
def jsProp (v : JSValue) (key : String) : Except QBError JSValue :=
  (jsGetProp v key).mapError fun _ => .typeError

/-- Index access that raises the JS `TypeError` into `QBError`. -/
def jsIdx (v : JSValue) (i : Nat) : Except QBError JSValue :=
  (jsIndex v i).mapError fun _ => .typeError

/-- `Array.isArray(value) ? value : value.split(',').map(v => v.trim())`:
the list coercion of the `in`/`notIn`/`any`/`all` branches.  Calling
`.split` on a non-string non-array is a `TypeError`. -/
def jsToList (value : JSValue) : Except QBError (List JSValue) :=
  match value with
  | .arr elems => .ok elems
  | .str s => .ok ((jsSplit s ',').map (fun p => .str p.trim))
  | _ => .error .typeError

mutual

/-- `JSON.stringify` rendered to a string; `none` models the JS result
`undefined` (for input `undefined`).  String escaping of quotes and
backslashes inside serialized strings is not modelled (no claim feeds such
strings through JSON). -/
def jsonStringifyStr : JSValue → Option String
  | .str s => some ("\"" ++ s ++ "\"")
  | .num n => some (intStr n)
  | .bool b => some (if b then "true" else "false")
  | .null => some "null"
  | .undef => none
  | .arr elems => some ("[" ++ strJoin "," (jsonStringifyList elems) ++ "]")
  | .obj fields => some ("\x7b" ++ strJoin "," (jsonStringifyFields fields) ++ "\x7d")

/-- Array elements under `JSON.stringify` (`undefined` renders `null`). -/
def jsonStringifyList : List JSValue → List String
  | [] => []
  | e :: rest => ((jsonStringifyStr e).getD "null") :: jsonStringifyList rest

/-- Object properties under `JSON.stringify` (`undefined` props dropped). -/
def jsonStringifyFields : List (String × JSValue) → List String
  | [] => []
  | (k, v) :: rest =>
    match jsonStringifyStr v with
    | some s => ("\"" ++ k ++ "\":" ++ s) :: jsonStringifyFields rest
    | none => jsonStringifyFields rest

end

/-- `JSON.stringify` as a JS value (`undefined` stays `undefined`). -/
def jsonStringify (v : JSValue) : JSValue :=
  match jsonStringifyStr v with
  | some s => .str s
  | none => (.undef)

/-- `Number(s)` on the strings produced by `split('-')`, integer fragment:
empty/whitespace is 0, optionally signed digit runs parse, anything else is
NaN (`none`).  (Fractional/exponent forms are not modelled; the builder only
ever feeds `"YYYY"`/`"MM"` fragments here, and NaN reaches `toISOString`
which throws.) -/
def jsNumberParse (s : String) : Option Int :=
  let t := s.trim
  if t = "" then some 0
  else
    let signDigits : Int × List Char :=
      match t.data with
      | '-' :: rest => (-1, rest)
      | '+' :: rest => (1, rest)
      | l => (1, l)
    if signDigits.2 ≠ [] ∧ signDigits.2.all Char.isDigit then
      some (signDigits.1 * (signDigits.2.foldl (fun a c => a * 10 + (c.toNat - 48)) 0 : Nat))
    else none

/-- `parseInt(value)`: stringify, trim, optional sign, take the leading
digit run; NaN (`none`) if there is none. -/
def jsParseInt (value : JSValue) : Option Int :=
  let t := (jsToString value).trim
  let signDigits : Int × List Char :=
    match t.data with
    | '-' :: rest => (-1, rest)
    | '+' :: rest => (1, rest)
    | l => (1, l)
  let ds := signDigits.2.takeWhile Char.isDigit
  if ds = [] then none
  else some (signDigits.1 * (ds.foldl (fun a c => a * 10 + (c.toNat - 48)) 0 : Nat))

/-- Resolution of the `col` operand:
`this.fieldMappings.get(value)?.dbField || value`, then template-literal
stringification.  `Map.get` with a non-string key misses (SameValueZero,
no coercion); an empty `dbField` is falsy and falls back to the raw value. -/
def resolveColField (fm : List (String × FieldMapping)) (value : JSValue) : String :=
  match value with
  | .str vs =>
    (match jsMapGet fm vs with
     | some m => if m.dbField = "" then vs else m.dbField
     | none => vs)
  | _ => jsToString value

/-- `buildCondition`: the per-operator emission switch.  Each case appends
one predicate fragment (built exactly as the source template literals do)
and pushes the corresponding bound values. -/
def buildCondition (fm : List (String × FieldMapping)) (ct : List (String × Transformer))
    (dbField : String) (operation : FilterOperation) (value : JSValue)
    (fieldType : String) (s : BuilderState) : Except QBError BuilderState :=
  let transformer := (jsMapGet ct dbField).orElse (fun _ => operation.valueTransformer)
  match operation.operator with
  | "isNull" | "isNotNull" =>
    .ok { s with conditions := s.conditions ++ [dbField ++ " " ++ operation.sqlOperator] }
  | "in" | "notIn" => do
    let inValues ← jsToList value
    let placeholders :=
      strJoin ", " ((List.range' s.paramIndex inValues.length).map (fun i => "$" ++ natStr i))
    .ok { conditions := s.conditions ++
            [dbField ++ " " ++ operation.sqlOperator ++ " (" ++ placeholders ++ ")"]
          values := s.values ++ inValues
          paramIndex := s.paramIndex + inValues.length }
  | "between" | "notBetween" | "dateRange" => do
    let range ←
      if operation.operator = "dateRange" then do
        let r ← parseDateRange value
        let rs ← jsProp r "start"
        let re ← jsProp r "end"
        pure (rs, re)
      else do
        let vs ← jsProp value "start"
        let v0 ← jsIdx value 0
        let ve ← jsProp value "end"
        let v1 ← jsIdx value 1
        pure (jsOr vs v0, jsOr ve v1)
    .ok { conditions := s.conditions ++
            [dbField ++ " " ++ operation.sqlOperator ++ " " ++ "$" ++ natStr s.paramIndex
              ++ " AND " ++ "$" ++ natStr (s.paramIndex + 1)]
          values := s.values ++ [range.1, range.2]
          paramIndex := s.paramIndex + 2 }
  | "monthYear" => do
    let sv ← match value with
      | .str sv => Except.ok sv
      | _ => Except.error QBError.typeError
    let parts := (jsSplit sv '-').map jsNumberParse
    match parts.get? 0, parts.get? 1 with
    | some (some year), some (some month) =>
      let monthRange := getMonthRange year month
      .ok { conditions := s.conditions ++
              [dbField ++ " BETWEEN " ++ "$" ++ natStr s.paramIndex
                ++ " AND " ++ "$" ++ natStr (s.paramIndex + 1)]
            values := s.values ++ [.str monthRange.start, .str monthRange.endVal]
            paramIndex := s.paramIndex + 2 }
    | _, _ => .error .invalidDate
  | "year" =>
    match jsParseInt value with
    | some year =>
      let yearRange := getYearRange year
      .ok { conditions := s.conditions ++
              [dbField ++ " BETWEEN " ++ "$" ++ natStr s.paramIndex
                ++ " AND " ++ "$" ++ natStr (s.paramIndex + 1)]
            values := s.values ++ [.str yearRange.start, .str yearRange.endVal]
            paramIndex := s.paramIndex + 2 }
    | none => .error .invalidDate
  | "any" | "all" => do
    let arrayValues ← jsToList value
    .ok { conditions := s.conditions ++
            [dbField ++ " " ++ operation.sqlOperator ++ " (" ++ "$" ++ natStr s.paramIndex ++ ")"]
          values := s.values ++ [.arr arrayValues]
          paramIndex := s.paramIndex + 1 }
  | "col" =>
    .ok { s with conditions := s.conditions ++
            [dbField ++ " " ++ operation.sqlOperator ++ " " ++ resolveColField fm value] }
  | "jsonContains" | "jsonContained" =>
    let jsonValue : JSValue :=
      match value with
      | .str _ => value
      | _ => jsonStringify value
    .ok { conditions := s.conditions ++
            [dbField ++ " " ++ operation.sqlOperator ++ " " ++ "$" ++ natStr s.paramIndex ++ "::jsonb"]
          values := s.values ++ [jsonValue]
          paramIndex := s.paramIndex + 1 }
  | "jsonKeyExists" | "jsonAnyKeyExists" | "jsonAllKeysExist" =>
    let keyValue : JSValue :=
      match value with
      | .arr _ => value
      | _ => .arr [value]
    .ok { conditions := s.conditions ++
            [dbField ++ " " ++ operation.sqlOperator ++ " " ++ "$" ++ natStr s.paramIndex]
          values := s.values ++ [keyValue]
          paramIndex := s.paramIndex + 1 }
  | "jsonPath" => do
    let jsonPathVal ← jsProp value "jsonPath"
    let pathValue ← jsProp value "value"
    .ok { conditions := s.conditions ++
            [dbField ++ operation.sqlOperator ++ " " ++ "$" ++ natStr s.paramIndex
              ++ " = " ++ "$" ++ natStr (s.paramIndex + 1)]
          values := s.values ++ [jsonPathVal, pathValue]
          paramIndex := s.paramIndex + 2 }
  | "jsonPathText" =>
    .ok { conditions := s.conditions ++
            [dbField ++ operation.sqlOperator ++ " " ++ "$" ++ natStr s.paramIndex ++ "::jsonb"]
          values := s.values ++ [value]
          paramIndex := s.paramIndex + 1 }
  | "jsonEq" => do
    let pathAndVal ←
      match value with
      | .arr elems => Except.ok ((elems.get? 0).getD .undef, (elems.get? 1).getD .undef)
      | _ => do
        let p ← jsProp value "path"
        let q ← jsProp value "value"
        pure (p, q)
    .ok { conditions := s.conditions ++
            [dbField ++ operation.sqlOperator ++ " " ++ "$" ++ natStr s.paramIndex
              ++ " = " ++ "$" ++ natStr (s.paramIndex + 1)]
          values := s.values ++ [pathAndVal.1, pathAndVal.2]
          paramIndex := s.paramIndex + 2 }
  | "fts" | "ftsPlain" | "ftsPhrase" | "ftsWeb" =>
    let tsquery :=
      match transformer with
      | some t => jsToString (t.apply value)
      | none => "\x27" ++ jsToString value ++ "\x27"
    .ok { conditions := s.conditions ++
            [dbField ++ " " ++ operation.sqlOperator ++ "(" ++ tsquery ++ ")"]
          values := s.values ++ [value]
          paramIndex := s.paramIndex + 1 }
  | "ciEq" | "ciNe" =>
    let ciValue :=
      match transformer with
      | some t => t.apply value
      | none => value
    .ok { conditions := s.conditions ++
            [dbField ++ " " ++ operation.sqlOperator ++ " " ++ "$" ++ natStr s.paramIndex]
          values := s.values ++ [ciValue]
          paramIndex := s.paramIndex + 1 }
  | "isTrue" | "isFalse" =>
    .ok { conditions := s.conditions ++
            [dbField ++ " " ++ operation.sqlOperator ++ " " ++ "$" ++ natStr s.paramIndex]
          values := s.values ++ [operation.transform .undef]
          paramIndex := s.paramIndex + 1 }
  | "distinctFrom" | "notDistinctFrom" =>
    .ok { conditions := s.conditions ++
            [dbField ++ " " ++ operation.sqlOperator ++ " " ++ "$" ++ natStr s.paramIndex]
          values := s.values ++ [value]
          paramIndex := s.paramIndex + 1 }
  | _ =>
    let transformedValue :=
      match transformer with
      | some t => t.apply value
      | none => operation.transform value
    let castSuffix := getCastSuffix fieldType
    .ok { conditions := s.conditions ++
            [dbField ++ castSuffix ++ " " ++ operation.sqlOperator ++ " " ++ "$" ++ natStr s.paramIndex]
          values := s.values ++ [transformedValue]
          paramIndex := s.paramIndex + 1 }

/-- `addCondition`: unknown fields throw; the computed-field guard
(`status`/`createdByUser`, or a physical expression containing `CASE` or
`SELECT`) silently no-ops; otherwise the operator is resolved and emission
dispatched. -/
def addCondition (fm : List (String × FieldMapping)) (ct : List (String × Transformer))
    (field operator : String) (value : JSValue) (s : BuilderState) :
    Except QBError BuilderState :=
  match jsMapGet fm field with
  | none => .error (.invalidFilterField field)
  | some mapping =>
    if ["status", "createdByUser"].contains field
        || strIncludes mapping.dbField "CASE" || strIncludes mapping.dbField "SELECT" then
      .ok s
    else
      match filterOperationsGet operator with
      | .error e => .error e
      | .ok operation => buildCondition fm ct mapping.dbField operation value mapping.type s

/-- `addRequiredConditions`: every entry is added with operator `'eq'`. -/
def addRequiredConditions (fm : List (String × FieldMapping))
    (ct : List (String × Transformer)) (requiredFilters : List (String × JSValue))
    (s : BuilderState) : Except QBError BuilderState :=
  match requiredFilters with
  | [] => .ok s
  | (field, value) :: rest => do
    addRequiredConditions fm ct rest (← addCondition fm ct field "eq" value s)

/-- `groupedFilters` insertion (`Map` keyed by operator: append the item to
the operator's list in place, or add a new group at the end). -/
def groupAdd : List (String × List (String × JSValue)) → String → (String × JSValue) →
    List (String × List (String × JSValue))
  | [], operator, item => [(operator, [item])]
  | g :: rest, operator, item =>
    if g.1 == operator then (g.1, g.2 ++ [item]) :: rest
    else g :: groupAdd rest operator item

/-- First loop of `addDynamicFilters`: scan parameters in order, throwing
once `conditionCount` reaches the cap with an entry still in hand, skipping
per `shouldSkipParam`, resolving suffixed keys by the regex and bare keys
through the registry (unknown bare keys skipped), grouping accepted entries
by operator. -/
def collectDynamicFilters (fm : List (String × FieldMapping)) (excludeFields : List String) :
    List (String × JSValue) → Nat → List (String × List (String × JSValue)) →
    Except QBError (List (String × List (String × JSValue)))
  | [], _, grouped => .ok grouped
  | (paramKey, paramValue) :: rest, conditionCount, grouped =>
    if conditionCount ≥ maxConditions then .error .maxConditionsExceeded
    else if shouldSkipParam paramKey paramValue excludeFields then
      collectDynamicFilters fm excludeFields rest conditionCount grouped
    else
      match parseKey paramKey with
      | some (fieldName, operator) =>
        collectDynamicFilters fm excludeFields rest (conditionCount + 1)
          (groupAdd grouped operator (fieldName, paramValue))
      | none =>
        match jsMapGet fm paramKey with
        | some m =>
          collectDynamicFilters fm excludeFields rest (conditionCount + 1)
            (groupAdd grouped (getDefaultOperator m.type) (paramKey, paramValue))
        | none => collectDynamicFilters fm excludeFields rest conditionCount grouped

/-- Inner loop of the second phase of `addDynamicFilters`: apply one
operator group's filters in encounter order. -/
def applyFilters (fm : List (String × FieldMapping)) (ct : List (String × Transformer))
    (operator : String) : List (String × JSValue) → BuilderState →
    Except QBError BuilderState
  | [], s => .ok s
  | (fieldName, paramValue) :: rest, s => do
    applyFilters fm ct operator rest (← addCondition fm ct fieldName operator paramValue s)

/-- Outer loop of the second phase of `addDynamicFilters`: operator groups
in insertion order. -/
def applyGrouped (fm : List (String × FieldMapping)) (ct : List (String × Transformer)) :
    List (String × List (String × JSValue)) → BuilderState → Except QBError BuilderState
  | [], s => .ok s
  | (operator, filters) :: restGroups, s => do
    applyGrouped fm ct restGroups (← applyFilters fm ct operator filters s)

/-- `addDynamicFilters`. -/
def addDynamicFilters (fm : List (String × FieldMapping)) (ct : List (String × Transformer))
    (queryParams : List (String × JSValue)) (excludeFields : List String)
    (s : BuilderState) : Except QBError BuilderState := do
  let grouped ← collectDynamicFilters fm excludeFields queryParams 0 []
  applyGrouped fm ct grouped s

/-- `build()`. -/
structure BuildResult where
  text : String
  values : List JSValue
deriving Repr

/-- `build()`: `WHERE` + fragments joined by `' AND '` when any condition
was emitted, else the empty string. -/
def build (s : BuilderState) : BuildResult :=
  { text := if s.conditions.length > 0 then "WHERE " ++ strJoin " AND " s.conditions else ""
    values := s.values }

/-- One public mutating call on a `FilterConditionBuilder`. -/
inductive BuilderOp where
  | addRequiredConditions (requiredFilters : List (String × JSValue))
  | addDynamicFilters (queryParams : List (String × JSValue)) (excludeFields : List String)
  | addCondition (field operator : String) (value : JSValue)

/-- Run one builder call. -/
def runOp (fm : List (String × FieldMapping)) (ct : List (String × Transformer)) :
    BuilderOp → BuilderState → Except QBError BuilderState
  | .addRequiredConditions requiredFilters, s => addRequiredConditions fm ct requiredFilters s
  | .addDynamicFilters queryParams excludeFields, s => addDynamicFilters fm ct queryParams excludeFields s
  | .addCondition field operator value, s => addCondition fm ct field operator value s

/-- Run a sequence of builder calls (left to right). -/
def runOps (fm : List (String × FieldMapping)) (ct : List (String × Transformer)) :
    List BuilderOp → BuilderState → Except QBError BuilderState
  | [], s => .ok s
  | op :: rest, s => do runOps fm ct rest (← runOp fm ct op s)

/-- The `(field, operator, value)` triples that a given `addDynamicFilters`
call will feed to `addCondition`, in application order (`[]` when the scan
phase throws). -/
def dynTriples (fm : List (String × FieldMapping)) (queryParams : List (String × JSValue))
    (excludeFields : List String) : List (String × String × JSValue) :=
  match collectDynamicFilters fm excludeFields queryParams 0 [] with
  | .ok grouped => (grouped.map (fun g => g.2.map (fun f => (f.1, g.1, f.2)))).flatten
  | .error _ => []

/-! ## Placeholder extraction

A little left-to-right scanner that reads the `$n` positional placeholders
out of emitted SQL text, in order.  The scanner state is `none` (plain
text), `some none` (just behind a `$`), or `some (some n)` (inside the
digit run of a placeholder whose value so far is `n`). -/

/-- Numeric value of a decimal digit character. -/
def digitVal (c : Char) : Nat := c.toNat - 48

/-- Scan for `$`-prefixed decimal placeholders; see section comment for the
state convention. -/
def phAux : List Char → Option (Option Nat) → List Nat
  | [], some (some n) => [n]
  | [], _ => []
  | c :: rest, some (some n) =>
    if c.isDigit then phAux rest (some (some (n * 10 + digitVal c)))
    else n :: (if c = '$' then phAux rest (some none) else phAux rest none)
  | c :: rest, some none =>
    if c.isDigit then phAux rest (some (some (digitVal c)))
    else if c = '$' then phAux rest (some none)
    else phAux rest none
  | c :: rest, none =>
    if c = '$' then phAux rest (some none) else phAux rest none

/-- The `$n` placeholder numbers of a SQL fragment, left to right. -/
def phList (s : String) : List Nat := phAux s.data none

/-- Placeholders emitted strictly while scanning `l` (without the final
flush of a pending number). -/
def phOut : List Char → Option (Option Nat) → List Nat
  | [], _ => []
  | c :: rest, some (some n) =>
    if c.isDigit then phOut rest (some (some (n * 10 + digitVal c)))
    else n :: (if c = '$' then phOut rest (some none) else phOut rest none)
  | c :: rest, some none =>
    if c.isDigit then phOut rest (some (some (digitVal c)))
    else if c = '$' then phOut rest (some none)
    else phOut rest none
  | c :: rest, none =>
    if c = '$' then phOut rest (some none) else phOut rest none

/-- Scanner state after consuming `l`. -/
def phState : List Char → Option (Option Nat) → Option (Option Nat)
  | [], st => st
  | c :: rest, some (some n) =>
    if c.isDigit then phState rest (some (some (n * 10 + digitVal c)))
    else if c = '$' then phState rest (some none)
    else phState rest none
  | c :: rest, some none =>
    if c.isDigit then phState rest (some (some (digitVal c)))
    else if c = '$' then phState rest (some none)
    else phState rest none
  | c :: rest, none =>
    if c = '$' then phState rest (some none) else phState rest none

/-- Final flush of a pending placeholder number. -/
def phFlush : Option (Option Nat) → List Nat
  | some (some n) => [n]
  | _ => []

/-- `phAux` = emitted output plus the final flush. -/
theorem phAux_eq_phOut_phFlush (l : List Char) :
    ∀ st, phAux l st = phOut l st ++ phFlush (phState l st) := by
  induction l with
  | nil => intro st; cases st with
    | none => rfl
    | some st => cases st <;> rfl
  | cons c rest ih =>
    intro st
    cases st with
    | none =>
      simp only [phAux, phOut, phState]
      split <;> rw [ih]
    | some st =>
      cases st with
      | none =>
        simp only [phAux, phOut, phState]
        split
        · rw [ih]
        · split <;> rw [ih]
      | some n =>
        simp only [phAux, phOut, phState]
        split
        · rw [ih]
        · split <;> simp [ih]

/-- Output and state both compose over list append. -/
theorem phOut_append (a b : List Char) :
    ∀ st, phOut (a ++ b) st = phOut a st ++ phOut b (phState a st) := by
  induction a with
  | nil => intro st; simp [phOut, phState]
  | cons c rest ih =>
    intro st
    cases st with
    | none =>
      simp only [List.cons_append, phOut, phState]
      split <;> simp [ih]
    | some st =>
      cases st with
      | none =>
        simp only [List.cons_append, phOut, phState]
        split
        · simp [ih]
        · split <;> simp [ih]
      | some n =>
        simp only [List.cons_append, phOut, phState]
        split
        · simp [ih]
        · split <;> simp [ih]

/-- State composes over list append. -/
theorem phState_append (a b : List Char) :
    ∀ st, phState (a ++ b) st = phState b (phState a st) := by
  induction a with
  | nil => intro st; simp [phState]
  | cons c rest ih =>
    intro st
    cases st with
    | none =>
      simp only [List.cons_append, phState]
      split <;> simp [ih]
    | some st =>
      cases st with
      | none =>
        simp only [List.cons_append, phState]
        split
        · simp [ih]
        · split <;> simp [ih]
      | some n =>
        simp only [List.cons_append, phState]
        split
        · simp [ih]
        · split <;> simp [ih]

/-- `phAux` over an append: scan the first part, then continue. -/
theorem phAux_append (a b : List Char) (st : Option (Option Nat)) :
    phAux (a ++ b) st = phOut a st ++ phAux b (phState a st) := by
  rw [phAux_eq_phOut_phFlush, phOut_append, phState_append, phAux_eq_phOut_phFlush,
    List.append_assoc]

/-- A list whose head (if any) is not a decimal digit. -/
def headNotDigit : List Char → Prop
  | [] => True
  | c :: _ => c.isDigit = false

instance headNotDigit.instDecidable (l : List Char) : Decidable (headNotDigit l) :=
  match l with
  | [] => isTrue trivial
  | c :: _ => (inferInstance : Decidable (c.isDigit = false))

/-- When the next character is not a digit, a pending number flushes and the
scanner behaves as if freshly started. -/
theorem phAux_reset (b : List Char) (hb : headNotDigit b) :
    ∀ st, phAux b st = phFlush st ++ phAux b none := by
  intro st
  cases b with
  | nil => cases st with
    | none => rfl
    | some st => cases st <;> rfl
  | cons c rest =>
    simp only [headNotDigit] at hb
    cases st with
    | none => rfl
    | some st =>
      cases st with
      | none => simp [phAux, phFlush, hb]
      | some n => simp [phAux, phFlush, hb]

/-- A `$`-free prefix contributes nothing to placeholder extraction. -/
theorem phOut_no_dollar (a : List Char) (ha : '$' ∉ a) :
    phOut a none = [] ∧ phState a none = none := by
  induction a with
  | nil => exact ⟨rfl, rfl⟩
  | cons c rest ih =>
    rw [List.mem_cons, not_or] at ha
    have hc : (c = '$') = False := by simp [Ne.symm ha.1, ha.1]
    simp only [phOut, phState, hc, if_false]
    exact ih ha.2

/-- Dropping a `$`-free prefix. -/
theorem phList_no_dollar_pre (a b : String) (ha : '$' ∉ a.data) :
    phList (a ++ b) = phList b := by
  have h := phOut_no_dollar a.data ha
  simp only [phList, String.data_append, phAux_append, h.1, h.2, List.nil_append]

/-- Value of a digit run (most significant first) on top of accumulator `m`. -/
def digitsVal (m : Nat) (ds : List Char) : Nat :=
  ds.foldl (fun a c => a * 10 + digitVal c) m

/-- Scanning a digit run accumulates its value and emits nothing. -/
theorem phState_digits (ds : List Char) (hds : ∀ c ∈ ds, c.isDigit) :
    ∀ m, phState ds (some (some m)) = some (some (digitsVal m ds))
      ∧ phOut ds (some (some m)) = [] := by
  induction ds with
  | nil => intro m; exact ⟨rfl, rfl⟩
  | cons c rest ih =>
    intro m
    have hc : c.isDigit := hds c (List.mem_cons_self c rest)
    have hrest : ∀ c ∈ rest, c.isDigit := fun c hcm => hds c (List.mem_cons_of_mem _ hcm)
    have := ih hrest (m * 10 + digitVal c)
    simp only [phState, phOut, hc, if_true, digitsVal, List.foldl_cons]
    exact this

/-- Behaviour of the `natStr` digits: non-empty, all digits, and their value
reads back as the rendered number. -/
theorem natDigitsAux_spec (fuel : Nat) :
    ∀ n, n < fuel → natDigitsAux fuel n ≠ [] ∧ (∀ c ∈ natDigitsAux fuel n, c.isDigit)
      ∧ ∀ m, digitsVal m (natDigitsAux fuel n) = m * 10 ^ (natDigitsAux fuel n).length + n := by
  induction fuel with
  | zero => intro n hn; omega
  | succ fuel ih =>
    intro n hn
    by_cases h10 : n < 10
    · have hd : (digitChar n).isDigit ∧ digitVal (digitChar n) = n := by
        interval_cases n <;> exact ⟨rfl, rfl⟩
      refine ⟨by simp [natDigitsAux, h10], ?_, ?_⟩
      · intro c hc
        simp [natDigitsAux, h10] at hc
        simp [hc, hd.1]
      · intro m
        simp [natDigitsAux, h10, digitsVal, hd.2]
    · have hq : n / 10 < fuel := by omega
      have := ih (n / 10) hq
      have hne : natDigitsAux (fuel + 1) n ≠ [] := by
        simp only [natDigitsAux, if_neg h10]
        simp [this.1]
      refine ⟨hne, ?_, ?_⟩
      · intro c hc
        simp only [natDigitsAux, if_neg h10, List.mem_append, List.mem_singleton] at hc
        rcases hc with hc | hc
        · exact this.2.1 c hc
        · subst hc
          have : digitVal (digitChar (n % 10)) = n % 10 ∧ (digitChar (n % 10)).isDigit := by
            have : n % 10 < 10 := Nat.mod_lt _ (by omega)
            interval_cases h : (n % 10) <;> exact ⟨rfl, rfl⟩
          simp [this.2]
      · intro m
        simp only [natDigitsAux, if_neg h10, digitsVal, List.foldl_append, List.foldl_cons,
          List.foldl_nil, List.length_append, List.length_singleton]
        have hmod : digitVal (digitChar (n % 10)) = n % 10 := by
          have : n % 10 < 10 := Nat.mod_lt _ (by omega)
          interval_cases h : (n % 10) <;> rfl
        have hv := this.2.2 m
        simp only [digitsVal] at hv
        rw [hv, hmod, pow_succ]
        have : 10 * (n / 10) + n % 10 = n := Nat.div_add_mod n 10
        ring_nf
        omega

/-- The rendered digits of `natStr n`: non-empty, all digits, value `n`. -/
theorem natStr_spec (n : Nat) :
    (natStr n).data ≠ [] ∧ (∀ c ∈ (natStr n).data, c.isDigit)
      ∧ digitsVal 0 (natStr n).data = n := by
  have h := natDigitsAux_spec (n + 1) n (by omega)
  exact ⟨h.1, h.2.1, by simpa using h.2.2 0⟩

/-- List-level core: scanning `'$'` then the digits of `natStr n` then a
suffix not starting in a digit yields placeholder `n` and continues. -/
theorem phAux_dollar_nat (n : Nat) (post : List Char) (hpost : headNotDigit post) :
    phAux ('$' :: ((natStr n).data ++ post)) none = n :: phAux post none := by
  obtain ⟨hne, hdig, hval⟩ := natStr_spec n
  have h0 : phAux ('$' :: ((natStr n).data ++ post)) none
      = phAux ((natStr n).data ++ post) (some none) := by
    simp [phAux]
  rw [h0]
  cases hd : (natStr n).data with
  | nil => exact absurd hd hne
  | cons d ds =>
    have hddig : d.isDigit := hdig d (hd ▸ List.mem_cons_self d ds)
    have hdsdig : ∀ c ∈ ds, c.isDigit := fun c hc => hdig c (hd ▸ List.mem_cons_of_mem d hc)
    have hstate := phState_digits ds hdsdig (digitVal d)
    have h2 : phAux (d :: (ds ++ post)) (some none)
        = phAux (ds ++ post) (some (some (digitVal d))) := by
      simp [phAux, hddig]
    rw [List.cons_append, h2, phAux_append, hstate.2, hstate.1, List.nil_append,
      phAux_reset post hpost]
    have : digitsVal (digitVal d) ds = n := by
      have := hval
      rw [hd] at this
      simpa [digitsVal] using this
    simp [phFlush, this]

/-- List-level: a `$`-free prefix can be dropped. -/
theorem phAux_no_dollar_pre (a b : List Char) (ha : '$' ∉ a) :
    phAux (a ++ b) none = phAux b none := by
  rw [phAux_append, (phOut_no_dollar a ha).1, (phOut_no_dollar a ha).2, List.nil_append]

/-- A `$`-free string has no placeholders. -/
theorem phList_no_dollar (a : String) (ha : '$' ∉ a.data) : phList a = [] := by
  have : phList a = phList (a ++ "") := by simp [phList, String.data_append]
  rw [this, phList_no_dollar_pre a "" ha]
  rfl

/-- The digits of a rendered number contain no dollar sign. -/
theorem natStr_no_dollar (n : Nat) : '$' ∉ (natStr n).data := by
  intro h
  have := (natStr_spec n).2.1 '$' h
  simp [Char.isDigit] at this

/-- `$`-freeness is preserved by append. -/
theorem noDollar_append {a b : String} (ha : '$' ∉ a.data) (hb : '$' ∉ b.data) :
    '$' ∉ (a ++ b).data := by
  simp only [String.data_append, List.mem_append]
  tauto

/-- A `$`-free char list scans to nothing. -/
theorem phAux_nil_of_no_dollar (a : List Char) (ha : '$' ∉ a) : phAux a none = [] := by
  rw [phAux_eq_phOut_phFlush, (phOut_no_dollar a ha).1, (phOut_no_dollar a ha).2]
  rfl

/-- `headNotDigit` composes over append. -/
theorem headNotDigit_append {a b : List Char} (ha : headNotDigit a) (hb : headNotDigit b) :
    headNotDigit (a ++ b) := by
  cases a with
  | nil => simpa using hb
  | cons c rest => simpa [headNotDigit] using ha

/-- Fragment `pre ++ "$" ++ natStr i` has exactly placeholder `i`. -/
theorem phList_pre_dollar (pre : String) (hpre : '$' ∉ pre.data) (i : Nat) :
    phList (pre ++ "$" ++ natStr i) = [i] := by
  have hdollar : ("$" : String).data = ['$'] := rfl
  simp only [phList, String.data_append, hdollar, List.append_assoc]
  rw [phAux_no_dollar_pre _ _ hpre, List.singleton_append,
    ← List.append_nil (natStr i).data, phAux_dollar_nat i [] trivial]
  rfl

/-- Fragment `pre ++ "$" ++ natStr i ++ post` (with a `$`-free `post` not
starting in a digit) has exactly placeholder `i`. -/
theorem phList_pre_dollar_post (pre : String) (hpre : '$' ∉ pre.data) (i : Nat)
    (post : String) (hp1 : headNotDigit post.data) (hp2 : '$' ∉ post.data) :
    phList (pre ++ "$" ++ natStr i ++ post) = [i] := by
  have hdollar : ("$" : String).data = ['$'] := rfl
  simp only [phList, String.data_append, hdollar, List.append_assoc]
  rw [phAux_no_dollar_pre _ _ hpre, List.singleton_append, phAux_dollar_nat i _ hp1,
    phAux_nil_of_no_dollar _ hp2]

/-- Fragment `pre ++ "$" ++ natStr i ++ mid ++ "$" ++ natStr j` has
placeholders `[i, j]`. -/
theorem phList_pre_dollar_two (pre : String) (hpre : '$' ∉ pre.data) (i : Nat)
    (mid : String) (hm1 : headNotDigit mid.data) (hm2 : '$' ∉ mid.data) (j : Nat) :
    phList (pre ++ "$" ++ natStr i ++ mid ++ "$" ++ natStr j) = [i, j] := by
  have hdollar : ("$" : String).data = ['$'] := rfl
  simp only [phList, String.data_append, hdollar, List.append_assoc]
  rw [phAux_no_dollar_pre _ _ hpre, List.singleton_append]
  have hmid' : headNotDigit (mid.data ++ ('$' :: (natStr j).data)) :=
    headNotDigit_append hm1 (by simp [headNotDigit, Char.isDigit])
  rw [show mid.data ++ (['$'] ++ (natStr j).data) = mid.data ++ ('$' :: (natStr j).data) by simp,
    phAux_dollar_nat i _ hmid', phAux_no_dollar_pre _ _ hm2,
    ← List.append_nil (natStr j).data, phAux_dollar_nat j [] trivial]
  rfl

/-- The `in`/`notIn` placeholder list `($a, $b, ...)` scans to its numbers. -/
theorem phAux_join_dollar (l : List Nat) (post : List Char)
    (hp1 : headNotDigit post) (hp2 : '$' ∉ post) :
    phAux ((strJoin ", " (l.map fun j => "$" ++ natStr j)).data ++ post) none = l := by
  induction l with
  | nil =>
    simpa [strJoin] using phAux_nil_of_no_dollar post hp2
  | cons j rest ih =>
    cases rest with
    | nil =>
      have hd : (("$" ++ natStr j : String)).data = '$' :: (natStr j).data := rfl
      simp only [List.map_cons, List.map_nil, strJoin, hd, List.cons_append]
      rw [phAux_dollar_nat j post hp1, phAux_nil_of_no_dollar post hp2]
    | cons j2 rest2 =>
      have hsep : (", " : String).data = [',', ' '] := rfl
      simp only [List.map_cons, strJoin, String.data_append, hsep, List.append_assoc]
      have hd : ("$" : String).data ++ ((natStr j).data ++ ([',', ' '] ++
          ((strJoin ", " (((j2 :: rest2).map fun j => "$" ++ natStr j))).data ++ post)))
          = '$' :: ((natStr j).data ++ ([',', ' '] ++
          ((strJoin ", " (((j2 :: rest2).map fun j => "$" ++ natStr j))).data ++ post))) := rfl
      rw [List.map_cons] at hd
      rw [hd, phAux_dollar_nat j _ (by simp [headNotDigit, Char.isDigit]),
        phAux_no_dollar_pre [',', ' '] _ (by decide)]
      rw [List.map_cons] at ih
      rw [ih]

/-- Per-element placeholder run of an `in`/`notIn` fragment. -/
theorem phList_join_paren (pre : String) (hpre : '$' ∉ pre.data) (l : List Nat) :
    phList (pre ++ strJoin ", " (l.map fun j => "$" ++ natStr j) ++ ")") = l := by
  simp only [phList, String.data_append, List.append_assoc]
  rw [phAux_no_dollar_pre _ _ hpre]
  exact phAux_join_dollar l (")").data (by decide) (by decide)

/-! ## Registry facts -/

/-- Successful `jsMapGet` implies list membership. -/
theorem jsMapGet_mem {α : Type} {l : List (String × α)} {k : String} {v : α}
    (h : jsMapGet l k = some v) : (k, v) ∈ l := by
  simp only [jsMapGet, Option.map_eq_some'] at h
  obtain ⟨e, he, hv⟩ := h
  have hmem : e ∈ l.reverse := List.mem_of_find?_eq_some he
  have hkey := List.find?_some he
  rw [List.mem_reverse] at hmem
  have hk : e.1 = k := by simpa using hkey
  have he2 : e = (k, v) := by
    cases e
    simp_all
  rwa [he2] at hmem

/-- Every registered operation is keyed by its own `operator` field. -/
theorem operationsMap_operator_eq_key :
    ∀ e ∈ operationsMap, e.2.operator = e.1 := by
  intro e he
  simp only [operationsMap, List.mem_map] at he
  obtain ⟨op, _, rfl⟩ := he
  rfl

/-- No registered SQL operator text contains a dollar sign. -/
theorem filterOperations_sql_no_dollar :
    ∀ op ∈ FILTER_OPERATIONS, '$' ∉ op.sqlOperator.data := by decide

/-- What a successful operator lookup guarantees. -/
theorem filterOperationsGet_ok {name : String} {op : FilterOperation}
    (h : filterOperationsGet name = .ok op) :
    jsMapGet operationsMap name = some op ∧ op.operator = name
      ∧ '$' ∉ op.sqlOperator.data := by
  unfold filterOperationsGet at h
  cases hm : jsMapGet operationsMap name with
  | none => rw [hm] at h; exact (Except.noConfusion h)
  | some a =>
    rw [hm] at h
    rw [Except.ok.injEq] at h
    subst h
    have hmem := jsMapGet_mem hm
    refine ⟨rfl, operationsMap_operator_eq_key _ hmem, ?_⟩
    have hops : a ∈ FILTER_OPERATIONS := by
      simp only [operationsMap, List.mem_map] at hmem
      obtain ⟨o, ho, he⟩ := hmem
      have h2 : o = a := congrArg Prod.snd he
      rwa [h2] at ho
    exact filterOperations_sql_no_dollar a hops

/-- The cast suffixes contain no dollar sign. -/
theorem getCastSuffix_no_dollar (ft : String) : '$' ∉ (getCastSuffix ft).data := by
  unfold getCastSuffix
  split <;> decide

/-! ## Emission lemmas -/

set_option maxHeartbeats 1000000 in
/-- Every successful `buildCondition` call appends exactly one fragment,
pushes some values, and advances the placeholder index by exactly the number
of values pushed. -/
theorem buildCondition_shape {fm : List (String × FieldMapping)}
    {ct : List (String × Transformer)} {db : String} {op : FilterOperation} {v : JSValue}
    {ft : String} {s s' : BuilderState}
    (h : buildCondition fm ct db op v ft s = .ok s') :
    ∃ frag vals, s'.conditions = s.conditions ++ [frag] ∧ s'.values = s.values ++ vals
      ∧ s'.paramIndex = s.paramIndex + vals.length := by
  unfold buildCondition at h
  split at h
  all_goals
    repeat'
      first
      | split at h
      | (simp only [Bind.bind, Except.bind, pure, Except.pure] at h; split at h)
  all_goals
    try simp only [Bind.bind, Except.bind, pure, Except.pure] at h
  all_goals
    first
    | (rw [Except.ok.injEq] at h; subst h;
       first
       | exact ⟨_, _, rfl, rfl, rfl⟩
       | (refine ⟨_, ([] : List JSValue), rfl, ?_, ?_⟩ <;> simp))
    | exact (Except.noConfusion h)

set_option maxHeartbeats 1000000 in
/-- Strengthening of `buildCondition_shape`: when the dispatched operation
is not in the full-text-search family, the physical field and SQL operator
are `$`-free, and a `col` operand resolves `$`-free, the appended fragment's
placeholders are exactly `paramIndex, …, paramIndex + k - 1` for the `k`
values pushed. -/
theorem buildCondition_ph {fm : List (String × FieldMapping)}
    {ct : List (String × Transformer)} {db : String} {op : FilterOperation} {v : JSValue}
    {ft : String} {s s' : BuilderState}
    (hdb : '$' ∉ db.data)
    (hsql : '$' ∉ op.sqlOperator.data)
    (hfts : op.operator ∉ (["fts", "ftsPlain", "ftsPhrase", "ftsWeb"] : List String))
    (hcol : op.operator = "col" → '$' ∉ (resolveColField fm v).data)
    (h : buildCondition fm ct db op v ft s = .ok s') :
    ∃ frag vals, s'.conditions = s.conditions ++ [frag] ∧ s'.values = s.values ++ vals
      ∧ s'.paramIndex = s.paramIndex + vals.length
      ∧ phList frag = List.range' s.paramIndex vals.length := by
  have ndSp : '$' ∉ (" " : String).data := by decide
  have ndIsNull : '$' ∉ (db ++ " " ++ op.sqlOperator).data :=
    noDollar_append (noDollar_append hdb ndSp) hsql
  have nd4 : '$' ∉ (db ++ " " ++ op.sqlOperator ++ " ").data :=
    noDollar_append ndIsNull ndSp
  have ndParen : '$' ∉ (db ++ " " ++ op.sqlOperator ++ " (").data :=
    noDollar_append ndIsNull (by decide)
  have ndBetween : '$' ∉ (db ++ " BETWEEN ").data := noDollar_append hdb (by decide)
  have ndJson : '$' ∉ (db ++ op.sqlOperator ++ " ").data :=
    noDollar_append (noDollar_append hdb hsql) ndSp
  have ndCast : '$' ∉ (db ++ getCastSuffix ft ++ " " ++ op.sqlOperator ++ " ").data :=
    noDollar_append (noDollar_append (noDollar_append
      (noDollar_append hdb (getCastSuffix_no_dollar ft)) ndSp) hsql) ndSp
  unfold buildCondition at h
  split at h
  -- isNull
  · rw [Except.ok.injEq] at h; subst h
    refine ⟨_, ([] : List JSValue), rfl, by simp, by simp, ?_⟩
    rw [phList_no_dollar _ ndIsNull]; rfl
  -- isNotNull
  · rw [Except.ok.injEq] at h; subst h
    refine ⟨_, ([] : List JSValue), rfl, by simp, by simp, ?_⟩
    rw [phList_no_dollar _ ndIsNull]; rfl
  -- in
  · simp only [Bind.bind, Except.bind, pure, Except.pure] at h
    repeat' split at h
    all_goals first
      | exact (Except.noConfusion h)
      | (rw [Except.ok.injEq] at h; subst h
         refine ⟨_, _, rfl, rfl, rfl, ?_⟩
         exact phList_join_paren _ ndParen _)
  -- notIn
  · simp only [Bind.bind, Except.bind, pure, Except.pure] at h
    repeat' split at h
    all_goals first
      | exact (Except.noConfusion h)
      | (rw [Except.ok.injEq] at h; subst h
         refine ⟨_, _, rfl, rfl, rfl, ?_⟩
         exact phList_join_paren _ ndParen _)
  -- between
  · simp only [Bind.bind, Except.bind, pure, Except.pure] at h
    repeat' split at h
    all_goals first
      | exact (Except.noConfusion h)
      | (rw [Except.ok.injEq] at h; subst h
         refine ⟨_, _, rfl, rfl, rfl, ?_⟩
         exact phList_pre_dollar_two _ nd4 _ " AND " (by decide) (by decide) _)
  -- notBetween
  · simp only [Bind.bind, Except.bind, pure, Except.pure] at h
    repeat' split at h
    all_goals first
      | exact (Except.noConfusion h)
      | (rw [Except.ok.injEq] at h; subst h
         refine ⟨_, _, rfl, rfl, rfl, ?_⟩
         exact phList_pre_dollar_two _ nd4 _ " AND " (by decide) (by decide) _)
  -- dateRange
  · simp only [Bind.bind, Except.bind, pure, Except.pure] at h
    repeat' split at h
    all_goals first
      | exact (Except.noConfusion h)
      | (rw [Except.ok.injEq] at h; subst h
         refine ⟨_, _, rfl, rfl, rfl, ?_⟩
         exact phList_pre_dollar_two _ nd4 _ " AND " (by decide) (by decide) _)
  -- monthYear
  · simp only [Bind.bind, Except.bind, pure, Except.pure] at h
    repeat' split at h
    all_goals first
      | exact (Except.noConfusion h)
      | (rw [Except.ok.injEq] at h; subst h
         refine ⟨_, _, rfl, rfl, rfl, ?_⟩
         exact phList_pre_dollar_two _ ndBetween _ " AND " (by decide) (by decide) _)
  -- year
  · repeat' split at h
    all_goals first
      | exact (Except.noConfusion h)
      | (rw [Except.ok.injEq] at h; subst h
         refine ⟨_, _, rfl, rfl, rfl, ?_⟩
         exact phList_pre_dollar_two _ ndBetween _ " AND " (by decide) (by decide) _)
  -- any
  · simp only [Bind.bind, Except.bind, pure, Except.pure] at h
    repeat' split at h
    all_goals first
      | exact (Except.noConfusion h)
      | (rw [Except.ok.injEq] at h; subst h
         refine ⟨_, _, rfl, rfl, rfl, ?_⟩
         exact phList_pre_dollar_post _ ndParen _ ")" (by decide) (by decide))
  -- all
  · simp only [Bind.bind, Except.bind, pure, Except.pure] at h
    repeat' split at h
    all_goals first
      | exact (Except.noConfusion h)
      | (rw [Except.ok.injEq] at h; subst h
         refine ⟨_, _, rfl, rfl, rfl, ?_⟩
         exact phList_pre_dollar_post _ ndParen _ ")" (by decide) (by decide))
  -- col
  · rename_i heq
    rw [Except.ok.injEq] at h; subst h
    refine ⟨_, ([] : List JSValue), rfl, by simp, by simp, ?_⟩
    rw [phList_no_dollar _ (noDollar_append nd4 (hcol heq))]; rfl
  -- jsonContains
  · rw [Except.ok.injEq] at h; subst h
    refine ⟨_, _, rfl, rfl, rfl, ?_⟩
    exact phList_pre_dollar_post _ nd4 _ "::jsonb" (by decide) (by decide)
  -- jsonContained
  · rw [Except.ok.injEq] at h; subst h
    refine ⟨_, _, rfl, rfl, rfl, ?_⟩
    exact phList_pre_dollar_post _ nd4 _ "::jsonb" (by decide) (by decide)
  -- jsonKeyExists
  · rw [Except.ok.injEq] at h; subst h
    refine ⟨_, _, rfl, rfl, rfl, ?_⟩
    exact phList_pre_dollar _ nd4 _
  -- jsonAnyKeyExists
  · rw [Except.ok.injEq] at h; subst h
    refine ⟨_, _, rfl, rfl, rfl, ?_⟩
    exact phList_pre_dollar _ nd4 _
  -- jsonAllKeysExist
  · rw [Except.ok.injEq] at h; subst h
    refine ⟨_, _, rfl, rfl, rfl, ?_⟩
    exact phList_pre_dollar _ nd4 _
  -- jsonPath
  · simp only [Bind.bind, Except.bind, pure, Except.pure] at h
    repeat' split at h
    all_goals first
      | exact (Except.noConfusion h)
      | (rw [Except.ok.injEq] at h; subst h
         refine ⟨_, _, rfl, rfl, rfl, ?_⟩
         exact phList_pre_dollar_two _ ndJson _ " = " (by decide) (by decide) _)
  -- jsonPathText
  · rw [Except.ok.injEq] at h; subst h
    refine ⟨_, _, rfl, rfl, rfl, ?_⟩
    exact phList_pre_dollar_post _ ndJson _ "::jsonb" (by decide) (by decide)
  -- jsonEq
  · simp only [Bind.bind, Except.bind, pure, Except.pure] at h
    repeat' split at h
    all_goals first
      | exact (Except.noConfusion h)
      | (rw [Except.ok.injEq] at h; subst h
         refine ⟨_, _, rfl, rfl, rfl, ?_⟩
         exact phList_pre_dollar_two _ ndJson _ " = " (by decide) (by decide) _)
  -- fts
  · rename_i heq
    exact absurd (by rw [heq]; decide) hfts
  -- ftsPlain
  · rename_i heq
    exact absurd (by rw [heq]; decide) hfts
  -- ftsPhrase
  · rename_i heq
    exact absurd (by rw [heq]; decide) hfts
  -- ftsWeb
  · rename_i heq
    exact absurd (by rw [heq]; decide) hfts
  -- ciEq
  · rw [Except.ok.injEq] at h; subst h
    refine ⟨_, _, rfl, rfl, rfl, ?_⟩
    exact phList_pre_dollar _ nd4 _
  -- ciNe
  · rw [Except.ok.injEq] at h; subst h
    refine ⟨_, _, rfl, rfl, rfl, ?_⟩
    exact phList_pre_dollar _ nd4 _
  -- isTrue
  · rw [Except.ok.injEq] at h; subst h
    refine ⟨_, _, rfl, rfl, rfl, ?_⟩
    exact phList_pre_dollar _ nd4 _
  -- isFalse
  · rw [Except.ok.injEq] at h; subst h
    refine ⟨_, _, rfl, rfl, rfl, ?_⟩
    exact phList_pre_dollar _ nd4 _
  -- distinctFrom
  · rw [Except.ok.injEq] at h; subst h
    refine ⟨_, _, rfl, rfl, rfl, ?_⟩
    exact phList_pre_dollar _ nd4 _
  -- notDistinctFrom
  · rw [Except.ok.injEq] at h; subst h
    refine ⟨_, _, rfl, rfl, rfl, ?_⟩
    exact phList_pre_dollar _ nd4 _
  -- default
  · rw [Except.ok.injEq] at h; subst h
    refine ⟨_, _, rfl, rfl, rfl, ?_⟩
    exact phList_pre_dollar _ ndCast _

/-! ## State invariants -/

/-- String append is associative. -/
theorem strAppend_assoc (a b c : String) : a ++ b ++ c = a ++ (b ++ c) := by
  apply String.ext
  simp [String.data_append]

/-- Joining after appending one element. -/
theorem strJoin_append_single (sep : String) (cs : List String) (c : String) :
    strJoin sep (cs ++ [c]) =
      match cs with
      | [] => c
      | _ :: _ => strJoin sep cs ++ sep ++ c := by
  induction cs with
  | nil => rfl
  | cons x t ih =>
    cases t with
    | nil => rfl
    | cons y t2 =>
      show strJoin sep ((x :: y :: t2) ++ [c]) = strJoin sep (x :: y :: t2) ++ sep ++ c
      have hx : strJoin sep ((x :: y :: t2) ++ [c])
          = x ++ sep ++ strJoin sep ((y :: t2) ++ [c]) := rfl
      have hy : strJoin sep (x :: y :: t2) = x ++ sep ++ strJoin sep (y :: t2) := rfl
      have ih' : strJoin sep ((y :: t2) ++ [c]) = strJoin sep (y :: t2) ++ sep ++ c := ih
      rw [hx, ih', hy]
      simp [strAppend_assoc]

/-- Placeholder extraction distributes over append when the right part does
not begin with a digit. -/
theorem phList_append_safe (a b : String) (hb : headNotDigit b.data) :
    phList (a ++ b) = phList a ++ phList b := by
  simp only [phList, String.data_append, phAux_append]
  rw [phAux_reset b.data hb (phState a.data none), phAux_eq_phOut_phFlush a.data none,
    ← List.append_assoc]

/-- Placeholders of a joined condition list grow by the new fragment's. -/
theorem phJoin_conditions_append (cs : List String) (frag : String) :
    phList (strJoin " AND " (cs ++ [frag]))
      = phList (strJoin " AND " cs) ++ phList frag := by
  cases cs with
  | nil =>
    show phList (strJoin " AND " [frag]) = phList (strJoin " AND " []) ++ phList frag
    have h1 : strJoin " AND " [frag] = frag := rfl
    have h2 : strJoin " AND " ([] : List String) = "" := rfl
    rw [h1, h2]
    rfl
  | cons x t =>
    have hj : strJoin " AND " ((x :: t) ++ [frag])
        = strJoin " AND " (x :: t) ++ " AND " ++ frag :=
      strJoin_append_single " AND " (x :: t) frag
    rw [hj, strAppend_assoc]
    have hnd : headNotDigit ((" AND " ++ frag)).data := by
      have h : (" AND " ++ frag).data = ' ' :: ("AND " ++ frag).data := rfl
      rw [h]
      simp [headNotDigit, Char.isDigit]
    rw [phList_append_safe _ _ hnd, phList_no_dollar_pre " AND " frag (by decide)]

/-- The placeholder/parameter invariant of a builder state: the joined
predicate's placeholders are exactly `1, …, values.length` in order, and the
next placeholder index is `values.length + 1`. -/
def PhInv (s : BuilderState) : Prop :=
  phList (strJoin " AND " s.conditions) = List.range' 1 s.values.length
    ∧ s.paramIndex = s.values.length + 1

/-- Hypotheses under which a single `addCondition` keeps placeholders
contiguous: the operator is not in the fts family, and a `col` operand
resolves to `$`-free text. -/
def GoodCall (fm : List (String × FieldMapping)) (operator : String) (v : JSValue) : Prop :=
  operator ∉ (["fts", "ftsPlain", "ftsPhrase", "ftsWeb"] : List String)
    ∧ (operator = "col" → '$' ∉ (resolveColField fm v).data)

/-- A field registry whose physical expressions are `$`-free. -/
def FmGood (fm : List (String × FieldMapping)) : Prop :=
  ∀ e ∈ fm, '$' ∉ e.2.dbField.data

/-- `buildCondition` preserves the placeholder invariant under the
`$`-freeness and non-fts hypotheses. -/
theorem buildCondition_phInv {fm ct db op v ft s s'}
    (hdb : '$' ∉ db.data) (hsql : '$' ∉ op.sqlOperator.data)
    (hfts : op.operator ∉ (["fts", "ftsPlain", "ftsPhrase", "ftsWeb"] : List String))
    (hcol : op.operator = "col" → '$' ∉ (resolveColField fm v).data)
    (hInv : PhInv s) (h : buildCondition fm ct db op v ft s = .ok s') : PhInv s' := by
  obtain ⟨frag, vals, hc, hv, hp, hph⟩ := buildCondition_ph hdb hsql hfts hcol h
  constructor
  · rw [hc, phJoin_conditions_append, hInv.1, hph, hInv.2, hv, List.length_append]
    have := List.range'_append 1 s.values.length vals.length 1
    simpa [Nat.add_comm] using this
  · rw [hp, hv, List.length_append]
    have := hInv.2
    omega

/-- `addCondition` preserves the placeholder invariant. -/
theorem addCondition_phInv {fm ct field operator v s s'}
    (hfm : FmGood fm) (hgood : GoodCall fm operator v)
    (hInv : PhInv s) (h : addCondition fm ct field operator v s = .ok s') : PhInv s' := by
  unfold addCondition at h
  split at h
  · exact (Except.noConfusion h)
  · rename_i mapping hm
    split at h
    · rw [Except.ok.injEq] at h; subst h; exact hInv
    · split at h
      · exact (Except.noConfusion h)
      · rename_i operation hop
        obtain ⟨_, hopname, hsql⟩ := filterOperationsGet_ok hop
        exact buildCondition_phInv (hfm _ (jsMapGet_mem hm)) hsql
          (by rw [hopname]; exact hgood.1) (by rw [hopname]; exact hgood.2) hInv h

/-- `applyFilters` preserves the placeholder invariant when every triple in
the group is good. -/
theorem applyFilters_phInv {fm ct operator} :
    ∀ {filters : List (String × JSValue)} {s s' : BuilderState},
    FmGood fm → (∀ f ∈ filters, GoodCall fm operator f.2) → PhInv s →
    applyFilters fm ct operator filters s = .ok s' → PhInv s'
  | [], s, s', _, _, hInv, h => by
    rw [applyFilters, Except.ok.injEq] at h
    exact h ▸ hInv
  | (fieldName, paramValue) :: rest, s, s', hfm, hgood, hInv, h => by
    rw [applyFilters] at h
    simp only [Bind.bind, Except.bind] at h
    split at h
    · exact (Except.noConfusion h)
    · rename_i s1 hc
      have h1 := addCondition_phInv hfm
        (hgood (fieldName, paramValue) (List.mem_cons_self _ _)) hInv hc
      exact applyFilters_phInv hfm (fun f hf => hgood f (List.mem_cons_of_mem _ hf)) h1 h

/-- `applyGrouped` preserves the placeholder invariant when every grouped
triple is good. -/
theorem applyGrouped_phInv {fm ct} :
    ∀ {grouped : List (String × List (String × JSValue))} {s s' : BuilderState},
    FmGood fm →
    (∀ g ∈ grouped, ∀ f ∈ g.2, GoodCall fm g.1 f.2) → PhInv s →
    applyGrouped fm ct grouped s = .ok s' → PhInv s'
  | [], s, s', _, _, hInv, h => by
    rw [applyGrouped, Except.ok.injEq] at h
    exact h ▸ hInv
  | (operator, filters) :: restGroups, s, s', hfm, hgood, hInv, h => by
    rw [applyGrouped] at h
    simp only [Bind.bind, Except.bind] at h
    split at h
    · exact (Except.noConfusion h)
    · rename_i s1 hg
      have h1 := applyFilters_phInv hfm
        (fun f hf => hgood (operator, filters) (List.mem_cons_self _ _) f hf) hInv hg
      exact applyGrouped_phInv hfm
        (fun g hgm f hf => hgood g (List.mem_cons_of_mem _ hgm) f hf) h1 h

/-- `addRequiredConditions` preserves the placeholder invariant outright
(the `eq` operation is never fts and never `col`). -/
theorem addRequiredConditions_phInv {fm ct} :
    ∀ {requiredFilters : List (String × JSValue)} {s s' : BuilderState},
    FmGood fm → PhInv s →
    addRequiredConditions fm ct requiredFilters s = .ok s' → PhInv s'
  | [], s, s', _, hInv, h => by
    rw [addRequiredConditions, Except.ok.injEq] at h
    exact h ▸ hInv
  | (field, value) :: rest, s, s', hfm, hInv, h => by
    rw [addRequiredConditions] at h
    simp only [Bind.bind, Except.bind] at h
    split at h
    · exact (Except.noConfusion h)
    · rename_i s1 hc
      have h1 := addCondition_phInv hfm ⟨by decide, fun habs => absurd habs (by decide)⟩ hInv hc
      exact addRequiredConditions_phInv hfm h1 h

/-- `addDynamicFilters` preserves the placeholder invariant when every
resolved `(field, operator, value)` triple is good. -/
theorem addDynamicFilters_phInv {fm ct queryParams excludeFields s s'}
    (hfm : FmGood fm)
    (hgood : ∀ t ∈ dynTriples fm queryParams excludeFields, GoodCall fm t.2.1 t.2.2)
    (hInv : PhInv s)
    (h : addDynamicFilters fm ct queryParams excludeFields s = .ok s') : PhInv s' := by
  unfold addDynamicFilters at h
  simp only [Bind.bind, Except.bind] at h
  split at h
  · exact (Except.noConfusion h)
  · rename_i grouped hcollect
    refine applyGrouped_phInv hfm ?_ hInv h
    intro g hg f hf
    have : (f.1, g.1, f.2) ∈ dynTriples fm queryParams excludeFields := by
      unfold dynTriples
      rw [hcollect]
      simp only [List.mem_flatten, List.mem_map]
      exact ⟨g.2.map (fun x => (x.1, g.1, x.2)), ⟨g, hg, rfl⟩, by
        simp only [List.mem_map]
        exact ⟨f, hf, rfl⟩⟩
    exact hgood _ this

/-- One builder call preserves the placeholder invariant when its resolved
condition triples are good. -/
def GoodOp (fm : List (String × FieldMapping)) : BuilderOp → Prop
  | .addRequiredConditions _ => True
  | .addDynamicFilters queryParams excludeFields =>
    ∀ t ∈ dynTriples fm queryParams excludeFields, GoodCall fm t.2.1 t.2.2
  | .addCondition _ operator value => GoodCall fm operator value

/-- `runOp` preserves the placeholder invariant on good calls. -/
theorem runOp_phInv {fm ct op s s'} (hfm : FmGood fm) (hgood : GoodOp fm op)
    (hInv : PhInv s) (h : runOp fm ct op s = .ok s') : PhInv s' := by
  cases op with
  | addRequiredConditions requiredFilters =>
    exact addRequiredConditions_phInv hfm hInv h
  | addDynamicFilters queryParams excludeFields =>
    exact addDynamicFilters_phInv hfm hgood hInv h
  | addCondition field operator value =>
    exact addCondition_phInv hfm hgood hInv h

/-- `runOps` preserves the placeholder invariant on good call sequences. -/
theorem runOps_phInv {fm ct} :
    ∀ {ops : List BuilderOp} {s s' : BuilderState},
    FmGood fm → (∀ op ∈ ops, GoodOp fm op) → PhInv s →
    runOps fm ct ops s = .ok s' → PhInv s'
  | [], s, s', _, _, hInv, h => by
    rw [runOps, Except.ok.injEq] at h
    exact h ▸ hInv
  | op :: rest, s, s', hfm, hgood, hInv, h => by
    rw [runOps] at h
    simp only [Bind.bind, Except.bind] at h
    split at h
    · exact (Except.noConfusion h)
    · rename_i s1 h1
      have := runOp_phInv hfm (hgood op (List.mem_cons_self _ _)) hInv h1
      exact runOps_phInv hfm (fun o ho => hgood o (List.mem_cons_of_mem _ ho)) this h

/-! ## The unconditional index invariant (`paramIndex = values.length + 1`) -/

/-- `addCondition` preserves `paramIndex = values.length + 1`
unconditionally (every emission branch, the fts family included, pushes
exactly as many values as indices it consumes). -/
theorem addCondition_idx {fm ct field operator v s s'}
    (hInv : s.paramIndex = s.values.length + 1)
    (h : addCondition fm ct field operator v s = .ok s') :
    s'.paramIndex = s'.values.length + 1 := by
  unfold addCondition at h
  split at h
  · exact (Except.noConfusion h)
  · split at h
    · rw [Except.ok.injEq] at h; subst h; exact hInv
    · split at h
      · exact (Except.noConfusion h)
      · obtain ⟨frag, vals, _, hv, hp⟩ := buildCondition_shape h
        rw [hp, hv, List.length_append]
        omega

/-- `applyFilters` preserves the index invariant. -/
theorem applyFilters_idx {fm ct operator} :
    ∀ {filters : List (String × JSValue)} {s s' : BuilderState},
    s.paramIndex = s.values.length + 1 →
    applyFilters fm ct operator filters s = .ok s' →
    s'.paramIndex = s'.values.length + 1
  | [], s, s', hInv, h => by
    rw [applyFilters, Except.ok.injEq] at h
    exact h ▸ hInv
  | (fieldName, paramValue) :: rest, s, s', hInv, h => by
    rw [applyFilters] at h
    simp only [Bind.bind, Except.bind] at h
    split at h
    · exact (Except.noConfusion h)
    · rename_i s1 hc
      exact applyFilters_idx (addCondition_idx hInv hc) h

/-- `applyGrouped` preserves the index invariant. -/
theorem applyGrouped_idx {fm ct} :
    ∀ {grouped : List (String × List (String × JSValue))} {s s' : BuilderState},
    s.paramIndex = s.values.length + 1 →
    applyGrouped fm ct grouped s = .ok s' →
    s'.paramIndex = s'.values.length + 1
  | [], s, s', hInv, h => by
    rw [applyGrouped, Except.ok.injEq] at h
    exact h ▸ hInv
  | (operator, filters) :: restGroups, s, s', hInv, h => by
    rw [applyGrouped] at h
    simp only [Bind.bind, Except.bind] at h
    split at h
    · exact (Except.noConfusion h)
    · rename_i s1 hg
      exact applyGrouped_idx (applyFilters_idx hInv hg) h

/-- `addRequiredConditions` preserves the index invariant. -/
theorem addRequiredConditions_idx {fm ct} :
    ∀ {requiredFilters : List (String × JSValue)} {s s' : BuilderState},
    s.paramIndex = s.values.length + 1 →
    addRequiredConditions fm ct requiredFilters s = .ok s' →
    s'.paramIndex = s'.values.length + 1
  | [], s, s', hInv, h => by
    rw [addRequiredConditions, Except.ok.injEq] at h
    exact h ▸ hInv
  | (field, value) :: rest, s, s', hInv, h => by
    rw [addRequiredConditions] at h
    simp only [Bind.bind, Except.bind] at h
    split at h
    · exact (Except.noConfusion h)
    · rename_i s1 hc
      exact addRequiredConditions_idx (addCondition_idx hInv hc) h

/-- `addDynamicFilters` preserves the index invariant. -/
theorem addDynamicFilters_idx {fm ct queryParams excludeFields s s'}
    (hInv : s.paramIndex = s.values.length + 1)
    (h : addDynamicFilters fm ct queryParams excludeFields s = .ok s') :
    s'.paramIndex = s'.values.length + 1 := by
  unfold addDynamicFilters at h
  simp only [Bind.bind, Except.bind] at h
  split at h
  · exact (Except.noConfusion h)
  · exact applyGrouped_idx hInv h

/-- `runOp` preserves the index invariant. -/
theorem runOp_idx {fm ct op s s'}
    (hInv : s.paramIndex = s.values.length + 1)
    (h : runOp fm ct op s = .ok s') : s'.paramIndex = s'.values.length + 1 := by
  cases op with
  | addRequiredConditions requiredFilters => exact addRequiredConditions_idx hInv h
  | addDynamicFilters queryParams excludeFields => exact addDynamicFilters_idx hInv h
  | addCondition field operator value => exact addCondition_idx hInv h

/-- `runOps` preserves the index invariant. -/
theorem runOps_idx {fm ct} :
    ∀ {ops : List BuilderOp} {s s' : BuilderState},
    s.paramIndex = s.values.length + 1 →
    runOps fm ct ops s = .ok s' → s'.paramIndex = s'.values.length + 1
  | [], s, s', hInv, h => by
    rw [runOps, Except.ok.injEq] at h
    exact h ▸ hInv
  | op :: rest, s, s', hInv, h => by
    rw [runOps] at h
    simp only [Bind.bind, Except.bind] at h
    split at h
    · exact (Except.noConfusion h)
    · rename_i s1 h1
      exact runOps_idx (runOp_idx hInv h1) h

instance GoodCall.instDecidable (fm : List (String × FieldMapping)) (operator : String)
    (v : JSValue) : Decidable (GoodCall fm operator v) := by
  unfold GoodCall
  exact inferInstance

instance GoodOp.instDecidable (fm : List (String × FieldMapping)) (op : BuilderOp) :
    Decidable (GoodOp fm op) := by
  unfold GoodOp
  cases op <;> exact inferInstance

instance FmGood.instDecidable (fm : List (String × FieldMapping)) :
    Decidable (FmGood fm) := by
  unfold FmGood
  exact inferInstance

/-! ## Concrete registries used by witnesses and counterexamples -/

/-- The registry of the spec's worked scenario:
`{id: {physical: "t.id", type: uuid}, name: {physical: "t.name", type: string}}`. -/
def fmIdName : List (String × FieldMapping) :=
  [("id", ⟨"t.id", "uuid"⟩), ("name", ⟨"t.name", "string"⟩)]

/-- A registry with one full-text-search field. -/
def fmTsv : List (String × FieldMapping) := [("v", ⟨"tv", "tsvector"⟩)]

/-- A registry containing the always-no-op field name `status`. -/
def fmStatus : List (String × FieldMapping) := [("status", ⟨"t.status", "string"⟩)]

/-- A registry with one plain `number` field and one `date` field. -/
def fmMixed : List (String × FieldMapping) :=
  [("n", ⟨"t.n", "number"⟩), ("d", ⟨"t.d", "date"⟩)]

/-- The (field name, operator) resolution of one query-parameter key in
`addDynamicFilters`: a suffixed key parses to (prefix, suffix); a bare key
resolves through the registry with the type\x27s default operator; `none`
means the key is dropped by the scan. -/
def resolveParam (fm : List (String × FieldMapping)) (k : String) : Option (String × String) :=
  match parseKey k with
  | some (f, o) => some (f, o)
  | none => (jsMapGet fm k).map (fun m => (k, getDefaultOperator m.type))

/-- The `addCondition` computed-field test: field named `status` or
`createdByUser`, or a physical expression containing `CASE` or `SELECT`
(filterConditionBuilder.ts lines 79-82). -/
def isComputedField (field : String) (m : FieldMapping) : Bool :=
  ["status", "createdByUser"].contains field || strIncludes m.dbField "CASE"
    || strIncludes m.dbField "SELECT"

/-- `addCondition` returns the state unchanged (no error, no emission) iff
the field is registered and computed: every other registered resolution
either errors or appends exactly one condition. -/
theorem addCondition_ok_self_iff (fm : List (String × FieldMapping))
    (ct : List (String × Transformer)) (f o : String) (v : JSValue) (s : BuilderState) :
    addCondition fm ct f o v s = .ok s ↔
      ∃ m, jsMapGet fm f = some m ∧ isComputedField f m = true := by
  unfold addCondition
  cases hm : jsMapGet fm f with
  | none => simp [hm]
  | some m =>
    simp only [hm]
    by_cases hcomp : (["status", "createdByUser"].contains f
        || strIncludes m.dbField "CASE" || strIncludes m.dbField "SELECT") = true
    · rw [if_pos hcomp]
      simp only [isComputedField]
      simp only [Except.ok.injEq, true_iff, eq_self_iff_true]
      exact ⟨m, rfl, hcomp⟩
    · rw [if_neg hcomp]
      simp only [isComputedField]
      constructor
      · intro h
        exfalso
        split at h
        · exact (Except.noConfusion h)
        · obtain ⟨frag, vals, hc, _, _⟩ := buildCondition_shape h
          have := congrArg List.length hc
          simp at this
      · rintro ⟨m', hm', hcomp'⟩
        rw [Option.some.injEq] at hm'
        subst hm'
        exact absurd hcomp' (by simpa using hcomp)

/-- `splitChars` never yields the empty list. -/
theorem splitChars_ne_nil (sep : Char) (l : List Char) : splitChars sep l ≠ [] := by
  cases l with
  | nil => simp [splitChars]
  | cons c rest =>
    simp only [splitChars]
    rcases splitChars sep rest with _ | ⟨h, t⟩
    · simp
    · by_cases hc : c = sep <;> simp [hc]

/-- The number of split parts is the separator count plus one. -/
theorem splitChars_length (sep : Char) (l : List Char) :
    (splitChars sep l).length = List.count sep l + 1 := by
  induction l with
  | nil => rfl
  | cons c rest ih =>
    simp only [splitChars]
    rcases hsp : splitChars sep rest with _ | ⟨h, t⟩
    · exact absurd hsp (splitChars_ne_nil sep rest)
    · rw [hsp] at ih
      by_cases hc : c = sep
      · subst hc
        simp [List.count_cons] at ih ⊢
        omega
      · simp [List.count_cons, hc, Ne.symm hc] at ih ⊢
        omega

/-- Joining the split parts with the separator restores the original. -/
def joinChars (sep : Char) : List (List Char) → List Char
  | [] => []
  | [p] => p
  | p :: rest => p ++ sep :: joinChars sep rest

/-- `splitChars` inverts through `joinChars`. -/
theorem splitChars_joinChars (sep : Char) (l : List Char) :
    joinChars sep (splitChars sep l) = l := by
  induction l with
  | nil => rfl
  | cons c rest ih =>
    simp only [splitChars]
    rcases hsp : splitChars sep rest with _ | ⟨h, t⟩
    · exact absurd hsp (splitChars_ne_nil sep rest)
    · rw [hsp] at ih
      by_cases hc : c = sep
      · subst hc
        simp only [if_pos rfl]
        cases t with
        | nil => simp only [joinChars] at ih ⊢; simp [ih]
        | cons t1 t2 => simp only [joinChars] at ih ⊢; simp [ih]
      · simp only [if_neg hc]
        cases t with
        | nil => simp only [joinChars] at ih ⊢; simp [ih]
        | cons t1 t2 =>
          simp only [joinChars] at ih ⊢
          simp [List.cons_append, ih]

/-- What one `addDynamicFilters` call with a single query parameter does:
skip, bare-unknown skip, or a single `addCondition` with the resolved
(field, operator). -/
theorem addDynamicFilters_single (fm : List (String × FieldMapping))
    (ct : List (String × Transformer)) (k : String) (v : JSValue)
    (excl : List String) (s : BuilderState) :
    addDynamicFilters fm ct [(k, v)] excl s =
      if shouldSkipParam k v excl then .ok s
      else
        match parseKey k with
        | some (f, o) => addCondition fm ct f o v s
        | none =>
          match jsMapGet fm k with
          | some m => addCondition fm ct k (getDefaultOperator m.type) v s
          | none => .ok s := by
  unfold addDynamicFilters collectDynamicFilters
  have h50 : ¬ ((0 : Nat) ≥ maxConditions) := by decide
  rw [if_neg h50]
  by_cases hskip : shouldSkipParam k v excl
  · simp [hskip, collectDynamicFilters, Bind.bind, Except.bind, applyGrouped]
  · simp only [hskip, if_false, Bool.false_eq_true, if_neg]
    cases hpk : parseKey k with
    | some fo =>
      obtain ⟨f, o⟩ := fo
      simp only [collectDynamicFilters, groupAdd, Bind.bind, Except.bind, applyGrouped,
        applyFilters]
      cases hc : addCondition fm ct f o v s <;>
        simp [hc, applyFilters, applyGrouped, Bind.bind, Except.bind]
    | none =>
      cases hm : jsMapGet fm k with
      | some m =>
        simp only [hm, collectDynamicFilters, groupAdd, Bind.bind, Except.bind, applyGrouped,
          applyFilters]
        cases hc : addCondition fm ct k (getDefaultOperator m.type) v s <;>
          simp [hc, applyFilters, applyGrouped, Bind.bind, Except.bind]
      | none =>
        simp [hm, collectDynamicFilters, Bind.bind, Except.bind, applyGrouped]

/-- `addCondition` with operator `eq` on a registered, non-computed field
with no custom transformer: emits exactly one `=`-predicate (with the
declared type's cast suffix) binding the raw value. -/
theorem addCondition_eq_emits (fm : List (String × FieldMapping))
    (ct : List (String × Transformer)) (a : String) (m : FieldMapping) (v : JSValue)
    (s : BuilderState)
    (hm : jsMapGet fm a = some m)
    (h1 : a ≠ "status") (h2 : a ≠ "createdByUser")
    (h3 : strIncludes m.dbField "CASE" = false)
    (h4 : strIncludes m.dbField "SELECT" = false)
    (hct : jsMapGet ct m.dbField = none) :
    addCondition fm ct a "eq" v s = .ok
      { conditions := s.conditions ++
          [m.dbField ++ getCastSuffix m.type ++ " " ++ "=" ++ " " ++ "$" ++ natStr s.paramIndex]
        values := s.values ++ [v]
        paramIndex := s.paramIndex + 1 } := by
  unfold addCondition
  rw [hm]
  dsimp only
  rw [if_neg (by simp [h3, h4]; exact ⟨h1, h2⟩)]
  have hop : filterOperationsGet "eq"
      = .ok { operator := "eq", sqlOperator := "=", valueTransformer := none } := rfl
  rw [hop]
  unfold buildCondition
  simp only [hct, Option.orElse]
  rfl

/-- Whether one query parameter is accepted (counted) by the scan phase. -/
def acceptsParam (fm : List (String × FieldMapping)) (excl : List String)
    (e : String × JSValue) : Bool :=
  !shouldSkipParam e.1 e.2 excl && ((parseKey e.1).isSome || (jsMapGet fm e.1).isSome)

/-- Total number of grouped filter items. -/
def flattenLen (grouped : List (String × List (String × JSValue))) : Nat :=
  (grouped.map (fun g => g.2.length)).sum

theorem flattenLen_groupAdd (grouped : List (String × List (String × JSValue)))
    (operator : String) (item : String × JSValue) :
    flattenLen (groupAdd grouped operator item) = flattenLen grouped + 1 := by
  induction grouped with
  | nil => rfl
  | cons g rest ih =>
    simp only [groupAdd]
    by_cases hg : (g.1 == operator) = true
    · simp only [hg, if_true, flattenLen, List.map_cons, List.sum_cons, List.length_append]
      simp
      omega
    · simp only [hg, if_false, Bool.false_eq_true, flattenLen, List.map_cons, List.sum_cons]
      simp only [flattenLen] at ih
      omega

theorem jsToList_error {v : JSValue} {e : QBError} (h : jsToList v = .error e) :
    e = .typeError := by
  cases v <;> simp [jsToList] at h <;> exact h.symm

theorem jsProp_error {v : JSValue} {k : String} {e : QBError} (h : jsProp v k = .error e) :
    e = .typeError := by
  cases v <;> simp [jsProp, jsGetProp, Except.mapError] at h <;> exact h.symm

theorem jsIdx_error {v : JSValue} {i : Nat} {e : QBError} (h : jsIdx v i = .error e) :
    e = .typeError := by
  cases v <;> simp [jsIdx, jsIndex, Except.mapError] at h <;> exact h.symm

theorem parseDateRange_error {v : JSValue} {e : QBError} (h : parseDateRange v = .error e) :
    e = .typeError ∨ e = .invalidDateRangeFormat := by
  cases v with
  | str s =>
    simp only [parseDateRange] at h
    split at h
    · exact (Except.noConfusion h)
    · rw [Except.error.injEq] at h
      right; exact h.symm
  | obj fields =>
    simp only [parseDateRange] at h
    split at h
    · exact (Except.noConfusion h)
    · rw [Except.error.injEq] at h
      right; exact h.symm
  | null =>
    simp only [parseDateRange, Except.error.injEq] at h
    left; exact h.symm
  | num n =>
    simp only [parseDateRange, Except.error.injEq] at h
    right; exact h.symm
  | bool b =>
    simp only [parseDateRange, Except.error.injEq] at h
    right; exact h.symm
  | undef =>
    simp only [parseDateRange, Except.error.injEq] at h
    right; exact h.symm
  | arr elems =>
    simp only [parseDateRange, Except.error.injEq] at h
    right; exact h.symm

set_option maxHeartbeats 2000000 in
theorem buildCondition_no_maxcond {fm : List (String × FieldMapping)}
    {ct : List (String × Transformer)} {db : String} {op : FilterOperation} {v : JSValue}
    {ft : String} {s : BuilderState} :
    buildCondition fm ct db op v ft s ≠ .error .maxConditionsExceeded := by
  intro h
  unfold buildCondition at h
  split at h
  all_goals
    repeat'
      first
      | split at h
      | (simp only [Bind.bind, Except.bind, pure, Except.pure] at h; split at h)
  all_goals
    try simp only [Bind.bind, Except.bind, pure, Except.pure] at h
  all_goals
    first
    | exact (Except.noConfusion h)
    | (rw [Except.error.injEq] at h
       first
       | exact QBError.noConfusion h
       | (rename_i heq
          subst h
          first
          | exact QBError.noConfusion (jsToList_error heq)
          | exact QBError.noConfusion (jsProp_error heq)
          | exact QBError.noConfusion (jsIdx_error heq)
          | (rcases parseDateRange_error heq with h2 | h2 <;> exact QBError.noConfusion h2)))

theorem exists_take_shift (p : String × JSValue → Bool) (e : String × JSValue)
    (rest : List (String × JSValue)) (count c : Nat) (hlt : count < c) :
    (∃ i < rest.length + 1, c ≤ count + ((e :: rest).take i).countP p)
      ↔ (∃ i < rest.length, c ≤ (count + (if p e then 1 else 0)) + (rest.take i).countP p) := by
  constructor
  · rintro ⟨i, hi, hc⟩
    cases i with
    | zero => simp at hc; omega
    | succ j =>
      refine ⟨j, by omega, ?_⟩
      rw [List.take_succ_cons, List.countP_cons] at hc
      by_cases hp : p e <;> simp [hp] at hc ⊢ <;> omega
  · rintro ⟨j, hj, hc⟩
    refine ⟨j + 1, by omega, ?_⟩
    rw [List.take_succ_cons, List.countP_cons]
    by_cases hp : p e <;> simp [hp] at hc ⊢ <;> omega

theorem collectDynamicFilters_maxcond_iff (fm : List (String × FieldMapping))
    (excl : List String) :
    ∀ (qp : List (String × JSValue)) (count : Nat)
      (grouped : List (String × List (String × JSValue))),
    (collectDynamicFilters fm excl qp count grouped = .error .maxConditionsExceeded
      ↔ ∃ i < qp.length,
          maxConditions ≤ count + ((qp.take i).countP (acceptsParam fm excl))) := by
  intro qp
  induction qp with
  | nil => intro count grouped; simp [collectDynamicFilters]
  | cons e rest ih =>
    intro count grouped
    obtain ⟨k, v⟩ := e
    simp only [collectDynamicFilters]
    by_cases hmax : count ≥ maxConditions
    · rw [if_pos hmax]
      constructor
      · intro _
        exact ⟨0, by simp, by simpa using hmax⟩
      · intro _
        rfl
    · rw [if_neg hmax]
      have hlt : count < maxConditions := by omega
      by_cases hskip : shouldSkipParam k v excl
      · rw [if_pos hskip]
        have hacc : acceptsParam fm excl (k, v) = false := by simp [acceptsParam, hskip]
        rw [ih count grouped]
        have hshift := exists_take_shift (acceptsParam fm excl) (k, v) rest count
          maxConditions hlt
        rw [hacc] at hshift
        simp only [Bool.false_eq_true, if_false, Nat.add_zero] at hshift
        rw [List.length_cons]
        exact hshift.symm
      · rw [if_neg hskip]
        cases hpk : parseKey k with
        | some fo =>
          obtain ⟨f, o⟩ := fo
          have hacc : acceptsParam fm excl (k, v) = true := by simp [acceptsParam, hskip, hpk]
          rw [ih (count + 1) _]
          have hshift := exists_take_shift (acceptsParam fm excl) (k, v) rest count
            maxConditions hlt
          rw [hacc] at hshift
          simp only [if_true] at hshift
          rw [List.length_cons]
          exact hshift.symm
        | none =>
          cases hm : jsMapGet fm k with
          | some m =>
            have hacc : acceptsParam fm excl (k, v) = true := by
              simp [acceptsParam, hskip, hm]
            rw [ih (count + 1) _]
            have hshift := exists_take_shift (acceptsParam fm excl) (k, v) rest count
              maxConditions hlt
            rw [hacc] at hshift
            simp only [if_true] at hshift
            rw [List.length_cons]
            exact hshift.symm
          | none =>
            have hacc : acceptsParam fm excl (k, v) = false := by
              simp [acceptsParam, hskip, hpk, hm]
            rw [ih count grouped]
            have hshift := exists_take_shift (acceptsParam fm excl) (k, v) rest count
              maxConditions hlt
            rw [hacc] at hshift
            simp only [Bool.false_eq_true, if_false, Nat.add_zero] at hshift
            rw [List.length_cons]
            exact hshift.symm

theorem collectDynamicFilters_ok_flattenLen (fm : List (String × FieldMapping))
    (excl : List String) :
    ∀ (qp : List (String × JSValue)) (count : Nat)
      (grouped g' : List (String × List (String × JSValue))),
    count ≤ maxConditions →
    collectDynamicFilters fm excl qp count grouped = .ok g' →
    flattenLen g' + count ≤ maxConditions + flattenLen grouped := by
  intro qp
  induction qp with
  | nil =>
    intro count grouped g' hcount h
    rw [collectDynamicFilters, Except.ok.injEq] at h
    subst h
    omega
  | cons e rest ih =>
    intro count grouped g' hcount h
    obtain ⟨k, v⟩ := e
    rw [collectDynamicFilters] at h
    by_cases hmax : count ≥ maxConditions
    · rw [if_pos hmax] at h
      exact (Except.noConfusion h)
    · rw [if_neg hmax] at h
      by_cases hskip : shouldSkipParam k v excl
      · rw [if_pos hskip] at h
        exact ih count grouped g' hcount h
      · rw [if_neg hskip] at h
        cases hpk : parseKey k with
        | some fo =>
          obtain ⟨f, o⟩ := fo
          rw [hpk] at h
          have := ih (count + 1) _ g' (by omega) h
          rw [flattenLen_groupAdd] at this
          omega
        | none =>
          rw [hpk] at h
          cases hm : jsMapGet fm k with
          | some m =>
            rw [hm] at h
            have := ih (count + 1) _ g' (by omega) h
            rw [flattenLen_groupAdd] at this
            omega
          | none =>
            rw [hm] at h
            exact ih count grouped g' hcount h

theorem addCondition_len {fm : List (String × FieldMapping)}
    {ct : List (String × Transformer)} {f o : String} {v : JSValue} {s s' : BuilderState}
    (h : addCondition fm ct f o v s = .ok s') :
    s'.conditions.length ≤ s.conditions.length + 1 := by
  unfold addCondition at h
  split at h
  · exact (Except.noConfusion h)
  · split at h
    · rw [Except.ok.injEq] at h
      subst h
      omega
    · split at h
      · exact (Except.noConfusion h)
      · obtain ⟨frag, vals, hc, _, _⟩ := buildCondition_shape h
        rw [hc, List.length_append]
        simp

theorem applyFilters_len {fm : List (String × FieldMapping)}
    {ct : List (String × Transformer)} {operator : String} :
    ∀ {filters : List (String × JSValue)} {s s' : BuilderState},
    applyFilters fm ct operator filters s = .ok s' →
    s'.conditions.length ≤ s.conditions.length + filters.length
  | [], s, s', h => by
    rw [applyFilters, Except.ok.injEq] at h
    subst h
    simp
  | (fieldName, paramValue) :: rest, s, s', h => by
    rw [applyFilters] at h
    simp only [Bind.bind, Except.bind] at h
    split at h
    · exact (Except.noConfusion h)
    · rename_i s1 hc
      have h1 := addCondition_len hc
      have h2 := applyFilters_len h
      simp only [List.length_cons]
      omega

theorem applyGrouped_len {fm : List (String × FieldMapping)}
    {ct : List (String × Transformer)} :
    ∀ {grouped : List (String × List (String × JSValue))} {s s' : BuilderState},
    applyGrouped fm ct grouped s = .ok s' →
    s'.conditions.length ≤ s.conditions.length + flattenLen grouped
  | [], s, s', h => by
    rw [applyGrouped, Except.ok.injEq] at h
    subst h
    simp [flattenLen]
  | (operator, filters) :: restGroups, s, s', h => by
    rw [applyGrouped] at h
    simp only [Bind.bind, Except.bind] at h
    split at h
    · exact (Except.noConfusion h)
    · rename_i s1 hg
      have h1 := applyFilters_len hg
      have h2 := applyGrouped_len h
      simp only [flattenLen, List.map_cons, List.sum_cons] at h2 ⊢
      omega

theorem addCondition_no_maxcond {fm : List (String × FieldMapping)}
    {ct : List (String × Transformer)} {f o : String} {v : JSValue} {s : BuilderState} :
    addCondition fm ct f o v s ≠ .error .maxConditionsExceeded := by
  intro h
  unfold addCondition at h
  split at h
  · simp at h
  · split at h
    · exact (Except.noConfusion h)
    · split at h
      · rename_i e he
        unfold filterOperationsGet at he
        split at he
        · exact (Except.noConfusion he)
        · rw [Except.error.injEq] at he h
          rw [← he] at h
          exact QBError.noConfusion h
      · exact absurd h buildCondition_no_maxcond

theorem applyFilters_no_maxcond {fm : List (String × FieldMapping)}
    {ct : List (String × Transformer)} {operator : String} :
    ∀ {filters : List (String × JSValue)} {s : BuilderState},
    applyFilters fm ct operator filters s ≠ .error .maxConditionsExceeded
  | [], s => by
    rw [applyFilters]
    simp
  | (fieldName, paramValue) :: rest, s => by
    intro h
    rw [applyFilters] at h
    simp only [Bind.bind, Except.bind] at h
    split at h
    · rename_i e hc
      rw [Except.error.injEq] at h
      rw [h] at hc
      exact addCondition_no_maxcond hc
    · exact applyFilters_no_maxcond h

theorem applyGrouped_no_maxcond {fm : List (String × FieldMapping)}
    {ct : List (String × Transformer)} :
    ∀ {grouped : List (String × List (String × JSValue))} {s : BuilderState},
    applyGrouped fm ct grouped s ≠ .error .maxConditionsExceeded
  | [], s => by
    rw [applyGrouped]
    simp
  | (operator, filters) :: restGroups, s => by
    intro h
    rw [applyGrouped] at h
    simp only [Bind.bind, Except.bind] at h
    split at h
    · rename_i e hg
      rw [Except.error.injEq] at h
      rw [h] at hg
      exact applyFilters_no_maxcond hg
    · exact applyGrouped_no_maxcond h

/-! ## Claims -/

/-- C1 (counterexample): one `fts` condition produces a predicate with zero
`$n` placeholders while pushing one bound value, so the build's placeholder
count does not equal `parameters.length`. -/
theorem c1_fts_breaks_placeholder_count :
    ∃ s', runOps fmTsv [] [.addCondition "v" "fts" (.str "x")] initState = .ok s'
      ∧ (phList (build s').text).length = 0 ∧ (build s').values.length = 1 :=
  ⟨_, rfl, rfl, rfl⟩

/-- C1 (amended): for every builder-call sequence that completes without
throwing, in which no resolved operation is in the fts family
(`fts`/`ftsPlain`/`ftsPhrase`/`ftsWeb`), over a registry whose physical
expressions are `$`-free and with every `col` operand resolving `$`-free,
the `$n` placeholders of `build()`'s predicate text read left-to-right are
exactly `1, 2, …, parameters.length` — contiguous from 1, no gaps or
repeats, and their count equals `parameters.length` (so `parameters[i-1]`
is the value the executor binds to `$i`). -/
theorem c1_placeholders_contiguous_amended (fm : List (String × FieldMapping))
    (ct : List (String × Transformer)) (ops : List BuilderOp) (s' : BuilderState)
    (hfm : FmGood fm) (hgood : ∀ op ∈ ops, GoodOp fm op)
    (h : runOps fm ct ops initState = .ok s') :
    phList (build s').text = List.range' 1 (build s').values.length
      ∧ (phList (build s').text).length = (build s').values.length := by
  have hinv : PhInv s' := runOps_phInv hfm hgood (⟨rfl, rfl⟩ : PhInv initState) h
  have htext : phList (build s').text = List.range' 1 s'.values.length := by
    show phList (if s'.conditions.length > 0 then "WHERE " ++ strJoin " AND " s'.conditions
      else "") = _
    split
    · rw [phList_no_dollar_pre "WHERE " _ (by decide)]
      exact hinv.1
    · rename_i hlen
      have hc : s'.conditions = [] := by
        cases hcs : s'.conditions with
        | nil => rfl
        | cons x t => exact absurd (hcs ▸ (by simp : (x :: t).length > 0)) hlen
      have h1 := hinv.1
      rw [hc] at h1
      exact h1
  exact ⟨htext, by rw [htext]; simp [build, List.length_range']⟩

/-- C1 (witness): the spec's worked scenario satisfies the amended claim. -/
theorem c1_placeholders_contiguous_witness :
    ∃ s', runOps fmIdName []
        [.addRequiredConditions [("id", .str "X")],
         .addDynamicFilters [("name_like", .str "bob")] []] initState = .ok s'
      ∧ phList (build s').text = List.range' 1 (build s').values.length := by
  refine ⟨_, rfl, ?_⟩
  exact (c1_placeholders_contiguous_amended fmIdName []
    [.addRequiredConditions [("id", .str "X")],
     .addDynamicFilters [("name_like", .str "bob")] []] _ (by decide) (by decide) rfl).1

/-- C2 (counterexample): a suffixed key whose field name is not registered
is *not* silently skipped: `addDynamicFilters({foo_gte: "1"})` throws
`UnknownFieldError` (`Invalid filter field: foo`). -/
theorem c2_suffixed_unknown_field_throws :
    addDynamicFilters fmIdName [] [("foo_gte", .str "1")] [] initState
      = .error (.invalidFilterField "foo") := rfl

/-- C2 (amended): during `addDynamicFilters`, a *bare* key whose field name
is not in the registry is silently skipped (no error, no condition), but a
`field_operatorSuffix` key whose parsed field name is not in the registry
is not skipped: applying its condition raises `UnknownFieldError` for that
field. -/
theorem c2_unknown_field_amended (fm : List (String × FieldMapping))
    (ct : List (String × Transformer)) (k : String) (v : JSValue)
    (excl : List String) (s : BuilderState) :
    (parseKey k = none → jsMapGet fm k = none →
      addDynamicFilters fm ct [(k, v)] excl s = .ok s)
    ∧ (∀ f o, parseKey k = some (f, o) → jsMapGet fm f = none →
        shouldSkipParam k v excl = false →
        addDynamicFilters fm ct [(k, v)] excl s = .error (.invalidFilterField f)) := by
  constructor
  · intro hpk hfm
    rw [addDynamicFilters_single]
    by_cases hskip : shouldSkipParam k v excl
    · simp [hskip]
    · simp [hskip, hpk, hfm]
  · intro f o hpk hfm hskip
    rw [addDynamicFilters_single, if_neg (by simp [hskip]), hpk]
    dsimp only
    unfold addCondition
    rw [hfm]

/-- C2 (witness): a bare unknown key is skipped; a suffixed unknown field
raises. -/
theorem c2_unknown_field_witness :
    addDynamicFilters fmIdName [] [("zzz", .str "1")] [] initState = .ok initState
      ∧ addDynamicFilters fmStatus [] [("bar_lt", .str "2")] [] initState
          = .error (.invalidFilterField "bar") :=
  ⟨(c2_unknown_field_amended fmIdName [] "zzz" (.str "1") [] initState).1 rfl rfl,
   (c2_unknown_field_amended fmStatus [] "bar_lt" (.str "2") [] initState).2
     "bar" "lt" rfl rfl rfl⟩

/-- C3 (counterexample): `status` is in the registry, yet
`addRequiredConditions({status: "x"})` emits no predicate at all (the
computed-field guard silently no-ops), contradicting "emits exactly one
`eq` predicate for every registry field". -/
theorem c3_status_field_emits_nothing :
    addRequiredConditions fmStatus [] [("status", .str "x")] initState = .ok initState
      ∧ (build initState).text = "" :=
  ⟨rfl, rfl⟩

/-- C3 (amended): for every registry field `a` that is not named `status`
or `createdByUser`, whose physical expression contains neither `CASE` nor
`SELECT`, and with no custom transformer registered for its physical
expression, `addRequiredConditions({a: v})` emits exactly one `eq`
predicate `<physical><castSuffix> = $n` binding `v`, regardless of `a`'s
declared type (the type only selects the cast suffix); computed fields
silently emit nothing. -/
theorem c3_required_eq_amended (fm : List (String × FieldMapping))
    (ct : List (String × Transformer)) (a : String) (m : FieldMapping) (v : JSValue)
    (s : BuilderState)
    (hm : jsMapGet fm a = some m)
    (h1 : a ≠ "status") (h2 : a ≠ "createdByUser")
    (h3 : strIncludes m.dbField "CASE" = false)
    (h4 : strIncludes m.dbField "SELECT" = false)
    (hct : jsMapGet ct m.dbField = none) :
    addRequiredConditions fm ct [(a, v)] s = .ok
      { conditions := s.conditions ++
          [m.dbField ++ getCastSuffix m.type ++ " " ++ "=" ++ " " ++ "$" ++ natStr s.paramIndex]
        values := s.values ++ [v]
        paramIndex := s.paramIndex + 1 } := by
  unfold addRequiredConditions
  simp only [Bind.bind, Except.bind]
  rw [addCondition_eq_emits fm ct a m v s hm h1 h2 h3 h4 hct]
  rfl

/-- C3 (witness): a `uuid`-typed field gets a plain `= $1` predicate. -/
theorem c3_required_eq_witness :
    addRequiredConditions fmIdName [] [("id", .str "X")] initState = .ok
      { conditions := initState.conditions ++
          ["t.id" ++ getCastSuffix "uuid" ++ " " ++ "=" ++ " " ++ "$"
            ++ natStr initState.paramIndex]
        values := initState.values ++ [.str "X"]
        paramIndex := initState.paramIndex + 1 } :=
  c3_required_eq_amended fmIdName [] "id" ⟨"t.id", "uuid"⟩ (.str "X") initState rfl
    (by decide) (by decide) rfl rfl rfl

/-- C5: the spec scenario verbatim — required `id` then dynamic `name_like`
yields `WHERE t.id = $1 AND t.name ILIKE $2` with parameters
`["X", "%bob%"]` in that order. -/
theorem c5_scenario_exact :
    ∃ s', runOps fmIdName []
        [.addRequiredConditions [("id", .str "X")],
         .addDynamicFilters [("name_like", .str "bob")] []] initState = .ok s'
      ∧ build s' = { text := "WHERE t.id = $1 AND t.name ILIKE $2",
                     values := [.str "X", .str "%bob%"] } :=
  ⟨_, rfl, rfl⟩

/-- C6 (counterexample): `getMonthRange(2023, 3)` (host timezone fixed to
UTC) starts at the *first* instant of March 1, 2023 — not at the last
instant of February 28, 2023. -/
theorem c6_monthRange_start_not_feb28 :
    (getMonthRange 2023 3).start = "2023-03-01T00:00:00.000Z"
      ∧ (getMonthRange 2023 3).start ≠ "2023-02-28T23:59:59.999Z" :=
  ⟨rfl, by decide⟩

/-- C6 (amended): with the host timezone fixed to UTC,
`getMonthRange(2023, 3)` returns the first instant of March 1, 2023 as
`start` and the last instant of March 31, 2023 as `end`, serialized as
ISO-8601; the result is deterministic and a cache whose entry for the
`(2023, 3)` key (if any) holds the computed value never changes the
returned range. -/
theorem c6_monthRange_amended (cache : List (String × DateRange))
    (hcoh : jsMapGet cache (monthCacheKey 2023 3) = none
      ∨ jsMapGet cache (monthCacheKey 2023 3) = some (getMonthRange 2023 3)) :
    (getMonthRangeCached cache 2023 3).1 = getMonthRange 2023 3
      ∧ getMonthRange 2023 3
          = { start := "2023-03-01T00:00:00.000Z", endVal := "2023-03-31T23:59:59.999Z" } := by
  refine ⟨?_, rfl⟩
  rcases hcoh with hcc | hcc <;> simp [getMonthRangeCached, hcc]

/-- C6 (witness): the amended claim at the empty (cold) cache. -/
theorem c6_monthRange_witness :
    (getMonthRangeCached [] 2023 3).1 = getMonthRange 2023 3
      ∧ getMonthRange 2023 3
          = { start := "2023-03-01T00:00:00.000Z", endVal := "2023-03-31T23:59:59.999Z" } :=
  c6_monthRange_amended [] (Or.inl rfl)

/-- C7 (counterexample): `parseDateRange(null)` does not fail with the
invalid-range-format error: `typeof null === 'object'`, so the code reaches
`'start' in null`, which throws a JS `TypeError`. -/
theorem c7_null_throws_typeError :
    parseDateRange .null = .error .typeError
      ∧ QBError.typeError ≠ QBError.invalidDateRangeFormat :=
  ⟨rfl, by decide⟩

/-- C7 (amended): `parseDateRange` returns a `{start, end}` object for a
comma-separated two-part string (exactly one comma; parts trimmed; the
parts join back to the input) or for an object carrying both `start` and
`end` keys (returned as-is), and fails with `InvalidRangeFormatError` for
every other input shape — *except* `null`, on which the `'start' in value`
test raises a JS `TypeError` instead (since `typeof null === 'object'`). -/
theorem c7_parseDateRange_amended (v : JSValue) :
    (∀ s : String, v = .str s → s.data.count ',' = 1 →
      ∃ a b : String, jsSplit s ',' = [a, b] ∧ a.data ++ ',' :: b.data = s.data
        ∧ parseDateRange v = .ok (.obj [("start", .str a.trim), ("end", .str b.trim)]))
    ∧ (∀ s : String, v = .str s → s.data.count ',' ≠ 1 →
        parseDateRange v = .error .invalidDateRangeFormat)
    ∧ (v = .null → parseDateRange v = .error .typeError)
    ∧ (∀ fields, v = .obj fields →
        ((jsMapGet fields "start").isSome ∧ (jsMapGet fields "end").isSome →
          parseDateRange v = .ok v)
        ∧ (¬((jsMapGet fields "start").isSome ∧ (jsMapGet fields "end").isSome) →
          parseDateRange v = .error .invalidDateRangeFormat))
    ∧ ((∀ s, v ≠ .str s) → v ≠ .null → (∀ fields, v ≠ .obj fields) →
        parseDateRange v = .error .invalidDateRangeFormat) := by
  refine ⟨?_, ?_, ?_, ?_, ?_⟩
  · intro s hv hcount
    subst hv
    have hlen : (splitChars ',' s.data).length = 2 := by
      rw [splitChars_length]
      omega
    rcases hsp : splitChars ',' s.data with _ | ⟨x, _ | ⟨y, _ | ⟨z, t⟩⟩⟩ <;>
      rw [hsp] at hlen <;> simp at hlen
    have hjoin := splitChars_joinChars ',' s.data
    rw [hsp] at hjoin
    refine ⟨⟨x⟩, ⟨y⟩, ?_, ?_, ?_⟩
    · simp [jsSplit, hsp]
    · simpa [joinChars] using hjoin
    · simp [parseDateRange, jsSplit, hsp]
  · intro s hv hcount
    subst hv
    have hlen : (splitChars ',' s.data).length = s.data.count ',' + 1 :=
      splitChars_length ',' s.data
    rcases hsp : splitChars ',' s.data with _ | ⟨x, _ | ⟨y, _ | ⟨z, t⟩⟩⟩ <;> rw [hsp] at hlen
    · simp [parseDateRange, jsSplit, hsp]
    · simp [parseDateRange, jsSplit, hsp]
    · exfalso
      simp at hlen
      omega
    · simp [parseDateRange, jsSplit, hsp]
  · intro hv; subst hv; rfl
  · intro fields hv
    subst hv
    constructor
    · intro hks
      simp [parseDateRange, hks.1, hks.2]
    · intro hks
      simp only [parseDateRange]
      rw [if_neg hks]
  · intro h1 h2 h3
    cases v with
    | str s => exact absurd rfl (h1 s)
    | null => exact absurd rfl h2
    | obj fields => exact absurd rfl (h3 fields)
    | num n => rfl
    | bool b => rfl
    | undef => rfl
    | arr elems => rfl

/-- C7 (witness): a two-part string parses into trimmed parts; a number is
an invalid shape. -/
theorem c7_parseDateRange_witness :
    (∃ a b : String, jsSplit "2024-01-01 , 2024-02-01" ',' = [a, b]
      ∧ a.data ++ ',' :: b.data = ("2024-01-01 , 2024-02-01" : String).data
      ∧ parseDateRange (.str "2024-01-01 , 2024-02-01")
          = .ok (.obj [("start", .str a.trim), ("end", .str b.trim)]))
    ∧ parseDateRange (.num 5) = .error .invalidDateRangeFormat :=
  ⟨(c7_parseDateRange_amended (.str "2024-01-01 , 2024-02-01")).1 _ rfl (by decide),
   (c7_parseDateRange_amended (.num 5)).2.2.2.2 (fun s h => JSValue.noConfusion h)
     (fun h => JSValue.noConfusion h) (fun fields h => JSValue.noConfusion h)⟩

/-- A cache coherent with the static operator registry: every cached entry
is what the registry holds for that key (all reachable caches are such,
since the cache is only ever filled from the registry). -/
def CoherentOpCache (cache : List (String × FilterOperation)) : Prop :=
  ∀ k op, jsMapGet cache k = some op → jsMapGet operationsMap k = some op

/-- C9: `FilterOperations.get` returns exactly the operator registered in
the static table, fails with `UnsupportedOperatorError` exactly when the
name is not registered, and the read-through cache never changes the
result: a warm (coherent) cache returns the same operator as a cold one. -/
theorem c9_get_cache_transparent (cache : List (String × FilterOperation))
    (hcoh : CoherentOpCache cache) (name : String) :
    (filterOperationsGetCached cache name).1 = filterOperationsGet name
      ∧ (∀ op, filterOperationsGet name = .ok op ↔ jsMapGet operationsMap name = some op)
      ∧ (filterOperationsGet name = .error (.unsupportedOperation name)
          ↔ jsMapGet operationsMap name = none) := by
  refine ⟨?_, ?_, ?_⟩
  · unfold filterOperationsGetCached filterOperationsGet
    cases hc : jsMapGet cache name with
    | some cached => rw [hcoh name cached hc]
    | none => cases hm : jsMapGet operationsMap name <;> simp [hm]
  · intro op
    unfold filterOperationsGet
    cases hm : jsMapGet operationsMap name <;> simp [hm]
  · unfold filterOperationsGet
    cases hm : jsMapGet operationsMap name <;> simp [hm]

/-- C9 (witness): the empty cache is coherent and agrees with the cold path
at `"eq"`. -/
theorem c9_get_cache_transparent_witness :
    (filterOperationsGetCached [] "eq").1 = filterOperationsGet "eq"
      ∧ filterOperationsGet "eq"
          = .ok { operator := "eq", sqlOperator := "=", valueTransformer := none } :=
  ⟨(c9_get_cache_transparent [] (fun k op h => by simp [jsMapGet] at h) "eq").1, rfl⟩

/-- C10: after any sequence of builder calls on a fresh builder that
completes without throwing, the internal placeholder index equals
`parameters.length + 1` — every emission branch (the fts family included)
pushes exactly as many values as indices it consumes, so the next
placeholder number handed to the query assembler is always
`values.length + 1`. -/
theorem c10_paramIndex_eq_values_succ (fm : List (String × FieldMapping))
    (ct : List (String × Transformer)) (ops : List BuilderOp) (s' : BuilderState)
    (h : runOps fm ct ops initState = .ok s') :
    s'.paramIndex = s'.values.length + 1 :=
  runOps_idx rfl h

/-- C10 (witness): holds in particular across an `fts` emission, which
consumes an index without emitting a placeholder. -/
theorem c10_paramIndex_witness :
    ∃ s', runOps fmTsv [] [.addCondition "v" "fts" (.str "x")] initState = .ok s'
      ∧ s'.paramIndex = s'.values.length + 1 := by
  refine ⟨_, rfl, ?_⟩
  exact c10_paramIndex_eq_values_succ fmTsv [] [.addCondition "v" "fts" (.str "x")] _ rfl

/-- C4 (amended): a single `addDynamicFilters` call raises
`TooManyConditionsError` iff some parameter entry is scanned when 50
conditions have already been accepted in that call — equivalently, iff some
proper prefix of the scanned entries already contains 50 accepted ones (so
a call accepting more than 50 raises, but so does one accepting exactly 50
with any further entry after the 50th, even a skippable one); a call that
completes adds at most 50 conditions.  A single build can still exceed 50
conditions through `addRequiredConditions` or repeated calls. -/
theorem c4_cap_amended (fm : List (String × FieldMapping))
    (ct : List (String × Transformer)) (qp : List (String × JSValue))
    (excl : List String) (s : BuilderState) :
    (addDynamicFilters fm ct qp excl s = .error .maxConditionsExceeded
      ↔ ∃ i < qp.length, 50 ≤ (qp.take i).countP (acceptsParam fm excl))
    ∧ (∀ s', addDynamicFilters fm ct qp excl s = .ok s' →
        s'.conditions.length ≤ s.conditions.length + 50) := by
  have hd1 : ∀ e, collectDynamicFilters fm excl qp 0 [] = .error e →
      addDynamicFilters fm ct qp excl s = .error e := by
    intro e he
    unfold addDynamicFilters
    rw [he]
    rfl
  have hd2 : ∀ g, collectDynamicFilters fm excl qp 0 [] = .ok g →
      addDynamicFilters fm ct qp excl s = applyGrouped fm ct g s := by
    intro g hg
    unfold addDynamicFilters
    rw [hg]
    rfl
  constructor
  · cases hcollect : collectDynamicFilters fm excl qp 0 [] with
    | error e =>
      have hiff := collectDynamicFilters_maxcond_iff fm excl qp 0 []
      rw [hcollect] at hiff
      simp only [Nat.zero_add] at hiff
      rw [hd1 e hcollect]
      constructor
      · intro h
        rw [Except.error.injEq] at h
        subst h
        exact hiff.mp rfl
      · intro hex
        have := hiff.mpr hex
        rw [Except.error.injEq] at this
        rw [this]
    | ok grouped =>
      have hiff := collectDynamicFilters_maxcond_iff fm excl qp 0 []
      rw [hcollect] at hiff
      simp only [Nat.zero_add] at hiff
      rw [hd2 grouped hcollect]
      constructor
      · intro h
        exact absurd h applyGrouped_no_maxcond
      · intro hex
        exact absurd (hiff.mpr hex) (Except.noConfusion)
  · intro s' h
    cases hcollect : collectDynamicFilters fm excl qp 0 [] with
    | error e =>
      rw [hd1 e hcollect] at h
      exact absurd h (Except.noConfusion)
    | ok grouped =>
      rw [hd2 grouped hcollect] at h
      have hflat := collectDynamicFilters_ok_flattenLen fm excl qp 0 [] grouped
        (by decide) hcollect
      have hlen := applyGrouped_len h
      have h50 : maxConditions = 50 := rfl
      have hnil : flattenLen [] = 0 := rfl
      omega

/-- 50 accepted `a_<suffix>` keys followed by the reserved key `limit`. -/
def c4Params : List (String × JSValue) :=
  ((List.range 50).map (fun i =>
    ("a_k" ++ String.mk [Char.ofNat (97 + i % 25)] ++ String.mk [Char.ofNat (97 + i / 25)],
      JSValue.str "1")))
  ++ [("limit", JSValue.str "10")]

/-- Registry for the cap scenario. -/
def c4Fm : List (String × FieldMapping) := [("a", ⟨"t.a", "number"⟩)]

/-- C4 (counterexample): 50 accepted suffixed keys followed by the
reserved (skippable) key `limit`: the call requests exactly 50 conditions —
not more than 50 — yet raises `TooManyConditionsError`. -/
theorem c4_counterexample :
    addDynamicFilters c4Fm [] c4Params [] initState = .error .maxConditionsExceeded
      ∧ c4Params.countP (acceptsParam c4Fm []) = 50 := by
  constructor
  · rfl
  · rfl

/-- C4 (witness): a small accepted filter set stays under the cap. -/
theorem c4_cap_witness :
    ∃ s', addDynamicFilters c4Fm [] [("a_gte", .str "1")] [] initState = .ok s'
      ∧ s'.conditions.length ≤ initState.conditions.length + 50 := by
  refine ⟨_, rfl, ?_⟩
  exact (c4_cap_amended c4Fm [] [("a_gte", .str "1")] [] initState).2 _ rfl

/-- C8 (counterexample): the registered field `status` with value `0` is
not skipped by `shouldSkipParam`, yet `addDynamicFilters` emits no
condition for it: the computed-field check in `addCondition` silently
drops it. -/
theorem c8_registered_not_skipped_no_condition :
    shouldSkipParam "status" (.num 0) [] = false
    ∧ (jsMapGet fmStatus "status").isSome = true
    ∧ addDynamicFilters fmStatus [] [("status", .num 0)] [] initState = .ok initState :=
  ⟨rfl, rfl, rfl⟩

/-- C8 (amended): for a single query parameter, `addDynamicFilters` leaves
the builder state unchanged without error iff the value is undefined, null
or the empty string, the key is excluded or reserved, the key is an
unrecognized bare field name, or the resolved field is a registered
computed field (named `status`/`createdByUser` or with `CASE`/`SELECT` in
its physical expression).  The values `false` and `0` are never skipped by
`shouldSkipParam`, but whether they produce a condition depends on the
resolved operation: on a registered non-computed bare `number` field each
produces exactly one `=` condition binding the raw value, while on a
registered non-computed bare `date` or `timestamp` field the resolved
`dateRange` default operator throws `InvalidRangeFormatError` on both,
producing no condition. -/
theorem c8_skip_amended (fm : List (String × FieldMapping))
    (ct : List (String × Transformer)) (k : String) (v : JSValue)
    (excl : List String) (s : BuilderState)
    (a : String) (m : FieldMapping)
    (hm : jsMapGet fm a = some m) (hty : m.type = "number")
    (h1 : a ≠ "status") (h2 : a ≠ "createdByUser")
    (h3 : strIncludes m.dbField "CASE" = false)
    (h4 : strIncludes m.dbField "SELECT" = false)
    (hct : jsMapGet ct m.dbField = none)
    (hpk : parseKey a = none)
    (hexcl : excl.contains a = false)
    (hres : (["limit", "offset", "sort", "sortField", "fields"].contains a) = false) :
    (addDynamicFilters fm ct [(k, v)] excl s = .ok s ↔
       shouldSkipParam k v excl = true
       ∨ resolveParam fm k = none
       ∨ ∃ f o m2, resolveParam fm k = some (f, o) ∧ jsMapGet fm f = some m2
           ∧ isComputedField f m2 = true)
    ∧ shouldSkipParam a (.bool false) excl = false
    ∧ shouldSkipParam a (.num 0) excl = false
    ∧ addDynamicFilters fm ct [(a, .num 0)] excl s = .ok
        { conditions := s.conditions ++
            [m.dbField ++ getCastSuffix m.type ++ " " ++ "=" ++ " " ++ "$" ++ natStr s.paramIndex]
          values := s.values ++ [.num 0]
          paramIndex := s.paramIndex + 1 }
    ∧ addDynamicFilters fm ct [(a, .bool false)] excl s = .ok
        { conditions := s.conditions ++
            [m.dbField ++ getCastSuffix m.type ++ " " ++ "=" ++ " " ++ "$" ++ natStr s.paramIndex]
          values := s.values ++ [.bool false]
          paramIndex := s.paramIndex + 1 }
    ∧ (∀ a2 md, jsMapGet fm a2 = some md → (md.type = "date" ∨ md.type = "timestamp") →
        a2 ≠ "status" → a2 ≠ "createdByUser" →
        strIncludes md.dbField "CASE" = false → strIncludes md.dbField "SELECT" = false →
        parseKey a2 = none → excl.contains a2 = false →
        (["limit", "offset", "sort", "sortField", "fields"].contains a2) = false →
        ∀ v0 : JSValue, (v0 = .num 0 ∨ v0 = .bool false) →
          addDynamicFilters fm ct [(a2, v0)] excl s = .error .invalidDateRangeFormat) := by
  have hskip0 : ∀ v0 : JSValue, (match v0 with
      | .undef => true | .null => true | .str "" => true | _ => false) = false →
      shouldSkipParam a v0 excl = false := by
    intro v0 hv0
    simp [shouldSkipParam, hv0]
    exact ⟨by simpa using hexcl, by simpa using hres⟩
  have hemit : ∀ v0 : JSValue, (match v0 with
      | .undef => true | .null => true | .str "" => true | _ => false) = false →
      addDynamicFilters fm ct [(a, v0)] excl s = .ok
        { conditions := s.conditions ++
            [m.dbField ++ getCastSuffix m.type ++ " " ++ "=" ++ " " ++ "$" ++ natStr s.paramIndex]
          values := s.values ++ [v0]
          paramIndex := s.paramIndex + 1 } := by
    intro v0 hv0
    rw [addDynamicFilters_single, if_neg (by simp [hskip0 v0 hv0])]
    simp only [hpk, hm]
    have : getDefaultOperator m.type = "eq" := by rw [hty]; rfl
    rw [this]
    exact addCondition_eq_emits fm ct a m v0 s hm h1 h2 h3 h4 hct
  refine ⟨?_, hskip0 _ rfl, hskip0 _ rfl, hemit _ rfl, hemit _ rfl, ?_⟩
  · rw [addDynamicFilters_single]
    by_cases hskip : shouldSkipParam k v excl = true
    · simp [hskip]
    · rw [if_neg (by simp [hskip])]
      cases hpkk : parseKey k with
      | some fo =>
        obtain ⟨f, o⟩ := fo
        rw [addCondition_ok_self_iff]
        simp only [resolveParam, hpkk, hskip]
        constructor
        · rintro ⟨m2, hm2, hc2⟩
          exact Or.inr (Or.inr ⟨f, o, m2, rfl, hm2, hc2⟩)
        · rintro (h | h | ⟨f', o', m2, hfo, hm2, hc2⟩)
          · exact Bool.noConfusion h
          · exact Option.noConfusion h
          · obtain ⟨hf, ho⟩ : f = f' ∧ o = o' := by simpa using hfo
            subst hf
            exact ⟨m2, hm2, hc2⟩
      | none =>
        cases hmk : jsMapGet fm k with
        | some m2 =>
          rw [addCondition_ok_self_iff]
          simp only [resolveParam, hpkk, hmk, Option.map_some, hskip]
          constructor
          · rintro ⟨m3, hm3, hc3⟩
            exact Or.inr (Or.inr ⟨k, getDefaultOperator m2.type, m3, rfl, hmk.trans hm3, hc3⟩)
          · rintro (h | h | ⟨f', o', m3, hfo, hm3, hc3⟩)
            · exact Bool.noConfusion h
            · exact Option.noConfusion h
            · obtain ⟨hf, ho⟩ : k = f' ∧ getDefaultOperator m2.type = o' := by
                simpa using hfo
              subst hf
              exact ⟨m3, hmk.symm.trans hm3, hc3⟩
        | none =>
          simp only [resolveParam, hpkk, hmk, Option.map_none]
          simp
  · intro a2 md hm2 hty2 h1b h2b h3b h4b hpk2 hexcl2 hres2 v0 hv0
    have hskipv : shouldSkipParam a2 v0 excl = false := by
      rcases hv0 with h | h <;> subst h <;>
        (simp [shouldSkipParam]; exact ⟨by simpa using hexcl2, by simpa using hres2⟩)
    rw [addDynamicFilters_single, if_neg (by simp [hskipv])]
    simp only [hpk2, hm2]
    have hdo : getDefaultOperator md.type = "dateRange" := by
      rcases hty2 with h | h <;> rw [h] <;> rfl
    rw [hdo]
    unfold addCondition
    rw [hm2]
    dsimp only
    rw [if_neg (by simp [h3b, h4b]; exact ⟨h1b, h2b⟩)]
    have hop : filterOperationsGet "dateRange"
        = .ok { operator := "dateRange", sqlOperator := "BETWEEN", valueTransformer := none } :=
      rfl
    rw [hop]
    rcases hv0 with h | h <;> subst h <;> rfl
/-- C8 (witness): the value `0` on the registered `number` field `n` is not
skipped and yields the condition `t.n = $1` binding `0`, while on the
registered `date` field `d` it raises the invalid-range-format error. -/
theorem c8_skip_witness :
    shouldSkipParam "n" (.num 0) [] = false
    ∧ addDynamicFilters fmMixed [] [("n", .num 0)] [] initState
        = .ok { conditions := ["t.n = $1"], values := [.num 0], paramIndex := 2 }
    ∧ addDynamicFilters fmMixed [] [("d", .num 0)] [] initState
        = .error .invalidDateRangeFormat := by
  have h := c8_skip_amended fmMixed [] "k" (.str "x") [] initState "n" ⟨"t.n", "number"⟩
    rfl rfl (by decide) (by decide) rfl rfl rfl rfl rfl rfl
  refine ⟨h.2.2.1, ?_, ?_⟩
  · rw [h.2.2.2.1]
    rfl
  · exact h.2.2.2.2.2 "d" ⟨"t.d", "date"⟩ rfl (Or.inl rfl) (by decide) (by decide)
      rfl rfl rfl rfl rfl (.num 0) (Or.inl rfl)

end PgQB
